import Mathlib

/-!
Verification of the schema-transformation core of the `shabang` repository.

The Python source is shallowly embedded: attribute sets (`Set[str]`) become
`Finset String`, lists stay `List`, dictionaries with optional keys become
structures with `Option` fields, and fallible code returns `Except`/`Option`.
Each definition mirrors one Python function; the originating file and symbol
are named in its doc comment.
-/

set_option autoImplicit false

namespace Shabang

/-! ## Functional-dependency engine
Embeds `schema-engine/normalization/fd_parser.py`. -/

/-- `FunctionalDependency` (fd_parser.py): a pair of attribute sets X -> Y.
Python compares by the frozensets of both sides, which is exactly structural
equality of the two `Finset`s. -/
structure FunctionalDependency where
  determinant : Finset String
  dependent : Finset String
  deriving DecidableEq

/-- One pass of the `while changed` loop of `compute_closure` (fd_parser.py,
lines 169-181): the inner `for fd in fds` loop mutates `closure` in place, so
later FDs in the same pass see the additions made by earlier ones; this is a
left fold. -/
def closureStep (fds : List FunctionalDependency) (closure : Finset String) : Finset String :=
  fds.foldl (fun c fd => if fd.determinant ⊆ c then c ∪ fd.dependent else c) closure

/-- Union of all dependents occurring in an FD list; every attribute the loop
of `compute_closure` can ever add comes from here. -/
def depsUnion (fds : List FunctionalDependency) : Finset String :=
  fds.foldl (fun a fd => a ∪ fd.dependent) ∅

/-- The `while changed` loop of `compute_closure`: repeat `closureStep` until a
pass makes no change.  The loop is bounded because the closure only grows and
stays inside `X ∪ depsUnion fds`; the fuel argument carries that bound. -/
def closureGo (fds : List FunctionalDependency) : Nat → Finset String → Finset String
  | 0, c => c
  | n + 1, c =>
    let c' := closureStep fds c
    if c' = c then c else closureGo fds n c'

/-- `compute_closure(attributes, fds)` (fd_parser.py, lines 155-182).
`(attributes ∪ depsUnion fds).card + 1` passes always suffice to reach the
fixed point, so this equals the value computed by the Python `while` loop. -/
def compute_closure (attributes : Finset String) (fds : List FunctionalDependency) :
    Finset String :=
  closureGo fds ((attributes ∪ depsUnion fds).card + 1) attributes

theorem subset_closureStep (fds : List FunctionalDependency) (c : Finset String) :
    c ⊆ closureStep fds c := by
  induction fds generalizing c with
  | nil => simp [closureStep]
  | cons fd rest ih =>
    simp only [closureStep, List.foldl_cons]
    refine Finset.Subset.trans ?_ (ih _)
    split <;> simp [Finset.subset_union_left]

theorem closureStep_subset {fds : List FunctionalDependency} {c bound : Finset String}
    (hc : c ⊆ bound) (hdep : ∀ fd ∈ fds, fd.dependent ⊆ bound) :
    closureStep fds c ⊆ bound := by
  induction fds generalizing c with
  | nil => simpa [closureStep] using hc
  | cons fd rest ih =>
    simp only [closureStep, List.foldl_cons]
    refine ih ?_ (fun fd h => hdep fd (List.mem_cons_of_mem _ h))
    split
    · exact Finset.union_subset hc (hdep fd (List.mem_cons_self _ _))
    · exact hc

theorem closureStep_apply {fds : List FunctionalDependency} {fd : FunctionalDependency}
    {c : Finset String} (hmem : fd ∈ fds) (hdet : fd.determinant ⊆ c) :
    fd.dependent ⊆ closureStep fds c := by
  induction fds generalizing c with
  | nil => cases hmem
  | cons g rest ih =>
    simp only [closureStep, List.foldl_cons]
    rcases List.mem_cons.mp hmem with h | h
    · subst h
      rw [if_pos hdet]
      exact Finset.Subset.trans Finset.subset_union_right
        (subset_closureStep rest _)
    · exact ih h (Finset.Subset.trans hdet (by split <;> simp [Finset.subset_union_left]))

theorem subset_closureGo (fds : List FunctionalDependency) (n : Nat) (c : Finset String) :
    c ⊆ closureGo fds n c := by
  induction n generalizing c with
  | zero => simp [closureGo]
  | succ n ih =>
    simp only [closureGo]
    split
    · exact Finset.Subset.refl _
    · exact Finset.Subset.trans (subset_closureStep fds c) (ih _)

theorem closureGo_subset {fds : List FunctionalDependency} {bound : Finset String}
    (hdep : ∀ fd ∈ fds, fd.dependent ⊆ bound) (n : Nat) {c : Finset String}
    (hc : c ⊆ bound) : closureGo fds n c ⊆ bound := by
  induction n generalizing c with
  | zero => simpa [closureGo] using hc
  | succ n ih =>
    simp only [closureGo]
    split
    · exact hc
    · exact ih (closureStep_subset hc hdep)

theorem subset_foldl_union (l : List FunctionalDependency) (a : Finset String) :
    a ⊆ List.foldl (fun acc fd => acc ∪ fd.dependent) a l := by
  induction l generalizing a with
  | nil => simp
  | cons r rs ih =>
    simp only [List.foldl_cons]
    exact Finset.Subset.trans Finset.subset_union_left (ih _)

theorem dependent_subset_depsUnion {fds : List FunctionalDependency}
    {fd : FunctionalDependency} (hmem : fd ∈ fds) : fd.dependent ⊆ depsUnion fds := by
  suffices h : ∀ (l : List FunctionalDependency) (a : Finset String), fd ∈ l →
      fd.dependent ⊆ List.foldl (fun acc fd => acc ∪ fd.dependent) a l from h fds ∅ hmem
  intro l
  induction l with
  | nil => intro a h; cases h
  | cons g rest ih =>
    intro a hm
    simp only [List.foldl_cons]
    rcases List.mem_cons.mp hm with h | h
    · subst h
      exact Finset.Subset.trans Finset.subset_union_right (subset_foldl_union rest _)
    · exact ih _ h

/-- After enough passes, `closureGo` reaches a fixed point of `closureStep`:
the termination argument of the Python `while` loop. -/
theorem closureStep_closureGo (fds : List FunctionalDependency) (n : Nat) (c : Finset String)
    (h : ((c ∪ depsUnion fds) \ c).card < n) :
    closureStep fds (closureGo fds n c) = closureGo fds n c := by
  induction n generalizing c with
  | zero => omega
  | succ n ih =>
    simp only [closureGo]
    split
    · assumption
    · rename_i hne
      apply ih
      have hsub : closureStep fds c ⊆ c ∪ depsUnion fds := by
        refine closureStep_subset Finset.subset_union_left ?_
        intro fd hfd
        exact Finset.Subset.trans (dependent_subset_depsUnion hfd) Finset.subset_union_right
      have hgrow : c ⊂ closureStep fds c :=
        Finset.ssubset_iff_subset_ne.mpr ⟨subset_closureStep fds c, fun h => hne h.symm⟩
      have hunion : closureStep fds c ∪ depsUnion fds = c ∪ depsUnion fds := by
        apply Finset.Subset.antisymm
        · exact Finset.union_subset hsub Finset.subset_union_right
        · exact Finset.union_subset
            (Finset.Subset.trans (subset_closureStep fds c) Finset.subset_union_left)
            Finset.subset_union_right
      have hlt : ((closureStep fds c ∪ depsUnion fds) \ closureStep fds c).card <
          ((c ∪ depsUnion fds) \ c).card := by
        rw [hunion]
        apply Finset.card_lt_card
        rw [Finset.ssubset_iff_of_subset
          (Finset.sdiff_subset_sdiff (Finset.Subset.refl _) hgrow.subset)]
        obtain ⟨a, hac, hacn⟩ := Finset.exists_of_ssubset hgrow
        exact ⟨a, Finset.mem_sdiff.mpr ⟨hsub hac, hacn⟩,
          fun hmem => (Finset.mem_sdiff.mp hmem).2 hac⟩
      omega

theorem closureStep_compute_closure (X : Finset String) (fds : List FunctionalDependency) :
    closureStep fds (compute_closure X fds) = compute_closure X fds := by
  apply closureStep_closureGo
  have : (X ∪ depsUnion fds) \ X ⊆ X ∪ depsUnion fds := Finset.sdiff_subset
  have := Finset.card_le_card this
  omega

theorem compute_closure_superset (X : Finset String) (fds : List FunctionalDependency) :
    X ⊆ compute_closure X fds :=
  subset_closureGo fds _ X

theorem compute_closure_subset {X bound : Finset String} {fds : List FunctionalDependency}
    (hX : X ⊆ bound) (hdep : ∀ fd ∈ fds, fd.dependent ⊆ bound) :
    compute_closure X fds ⊆ bound :=
  closureGo_subset hdep _ hX

theorem compute_closure_apply {X : Finset String} {fds : List FunctionalDependency}
    {fd : FunctionalDependency} (hmem : fd ∈ fds)
    (hdet : fd.determinant ⊆ compute_closure X fds) :
    fd.dependent ⊆ compute_closure X fds := by
  conv_rhs => rw [← closureStep_compute_closure X fds]
  exact closureStep_apply hmem hdet

theorem compute_closure_fixpoint_eq {c : Finset String} {fds : List FunctionalDependency}
    (h : closureStep fds c = c) : compute_closure c fds = c := by
  unfold compute_closure closureGo
  simp [h]

/-- C3. For every attribute set `X` and FD list `F`, `compute_closure(X, F)`
contains `X`, and `compute_closure` is idempotent:
`compute_closure(compute_closure(X, F), F) = compute_closure(X, F)`. -/
theorem compute_closure_superset_and_idempotent (X : Finset String)
    (fds : List FunctionalDependency) :
    X ⊆ compute_closure X fds ∧
      compute_closure (compute_closure X fds) fds = compute_closure X fds :=
  ⟨compute_closure_superset X fds,
    compute_closure_fixpoint_eq (closureStep_compute_closure X fds)⟩

/-! ### Candidate keys: `find_candidate_keys` (fd_parser.py, lines 185-235) -/

/-- Lexicographic comparison of character lists; unlike `String.le` it reduces
inside the kernel, which lets witnesses evaluate by `decide`. -/
def charsLe : List Char → List Char → Bool
  | [], _ => true
  | _ :: _, [] => false
  | a :: as, b :: bs => if a < b then true else if b < a then false else charsLe as bs

/-- Kernel-reducible total order on strings used to enumerate attribute sets. -/
def strLeP (a b : String) : Prop := charsLe a.data b.data = true

instance : DecidableRel strLeP := fun _ _ => decEq _ _

theorem charsLe_total (as bs : List Char) : charsLe as bs = true ∨ charsLe bs as = true := by
  induction as generalizing bs with
  | nil => left; rfl
  | cons a as ih =>
    cases bs with
    | nil => right; rfl
    | cons b bs =>
      rcases lt_trichotomy a b with h | h | h
      · left; simp [charsLe, h]
      · subst h
        rcases ih bs with h' | h' <;> [left; right] <;> simp [charsLe, h']
      · right; simp [charsLe, h]

theorem charsLe_trans {as bs cs : List Char} (h1 : charsLe as bs = true)
    (h2 : charsLe bs cs = true) : charsLe as cs = true := by
  induction as generalizing bs cs with
  | nil => rfl
  | cons a as ih =>
    cases bs with
    | nil => simp [charsLe] at h1
    | cons b bs =>
      cases cs with
      | nil => simp [charsLe] at h2
      | cons c cs =>
        simp only [charsLe] at h1 h2 ⊢
        by_cases hab : a < b
        · by_cases hbc : b < c
          · simp [lt_trans hab hbc]
          · by_cases hcb : c < b
            · simp [hbc, hcb] at h2
            · have : b = c := le_antisymm (not_lt.mp hcb) (not_lt.mp hbc)
              subst this
              simp [hab]
        · by_cases hba : b < a
          · simp [hab, hba] at h1
          · have : a = b := le_antisymm (not_lt.mp hba) (not_lt.mp hab)
            subst this
            simp only [if_neg hab, if_neg hba] at h1
            by_cases hac : a < c
            · simp [hac]
            · by_cases hca : c < a
              · simp [hac, hca] at h2
              · simp only [if_neg hac, if_neg hca] at h2 ⊢
                exact ih h1 h2

theorem charsLe_antisymm {as bs : List Char} (h1 : charsLe as bs = true)
    (h2 : charsLe bs as = true) : as = bs := by
  induction as generalizing bs with
  | nil =>
    cases bs with
    | nil => rfl
    | cons b bs => simp [charsLe] at h2
  | cons a as ih =>
    cases bs with
    | nil => simp [charsLe] at h1
    | cons b bs =>
      simp only [charsLe] at h1 h2
      by_cases hab : a < b
      · simp [asymm hab, hab] at h2
      · by_cases hba : b < a
        · simp [hab, hba] at h1
        · have : a = b := le_antisymm (not_lt.mp hba) (not_lt.mp hab)
          subst this
          simp only [if_neg hab, if_neg hba] at h1 h2
          rw [ih h1 h2]

instance : IsTotal String strLeP := ⟨fun a b => charsLe_total a.data b.data⟩

instance : IsTrans String strLeP := ⟨fun _ _ _ => charsLe_trans⟩

instance : IsAntisymm String strLeP :=
  ⟨fun a b h1 h2 => by
    have h := charsLe_antisymm h1 h2
    cases a; cases b
    exact congrArg String.mk h⟩

/-- Enumerate a finite set of attribute names as a sorted list (insertion sort
reduces inside the kernel, unlike `Finset.sort`, which relies on `mergeSort`).
This models both Python `sorted(s)` and iteration over a set, whose order no
property below depends on. -/
def sortedList (s : Multiset String) : List String :=
  Quot.liftOn s (List.insertionSort strLeP) (fun l l' h =>
    List.eq_of_perm_of_sorted
      (((List.perm_insertionSort _ l).trans h).trans (List.perm_insertionSort _ l').symm)
      (List.sorted_insertionSort _ l) (List.sorted_insertionSort _ l'))

theorem mem_sortedList {s : Multiset String} {a : String} :
    a ∈ sortedList s ↔ a ∈ s := by
  induction s using Quot.ind with
  | _ l => exact ⟨fun h => (List.perm_insertionSort _ l).mem_iff.mp h,
      fun h => (List.perm_insertionSort _ l).mem_iff.mpr h⟩

/-- `sorted(s)` on a `Finset`. -/
def sortedElems (A : Finset String) : List String := sortedList A.val

theorem mem_sortedElems {A : Finset String} {a : String} :
    a ∈ sortedElems A ↔ a ∈ A := mem_sortedList

/-- The stream `itertools.combinations(all_attributes, size)`: all subsets of
`A` with exactly `k` elements.  Python iterates a set in unspecified order;
every property proved below is independent of the order of this list. -/
def subsetsOfCard (A : Finset String) (k : Nat) : List (Finset String) :=
  (((sortedElems A).sublists).map List.toFinset).filter (fun s => s.card = k)

theorem mem_subsetsOfCard {A s : Finset String} {k : Nat} :
    s ∈ subsetsOfCard A k ↔ s ⊆ A ∧ s.card = k := by
  unfold subsetsOfCard
  rw [List.mem_filter, List.mem_map]
  constructor
  · rintro ⟨⟨l, hl, rfl⟩, hk⟩
    refine ⟨?_, by simpa using hk⟩
    intro a ha
    rw [List.mem_toFinset] at ha
    have := (List.mem_sublists.mp hl).subset ha
    rwa [mem_sortedElems] at this
  · rintro ⟨hsub, hk⟩
    refine ⟨⟨(sortedElems A).filter (fun a => a ∈ s), List.mem_sublists.mpr
      (List.filter_sublist _), ?_⟩, by simpa using hk⟩
    ext a
    rw [List.mem_toFinset, List.mem_filter]
    constructor
    · rintro ⟨_, ha⟩
      exact of_decide_eq_true ha
    · intro ha
      exact ⟨mem_sortedElems.mpr (hsub ha), decide_eq_true ha⟩

/-- The inner minimality scan of `find_candidate_keys` (lines 219-226): for
every `subset_size` from 1 to `size - 1`, no subset of `combo` of that size is
a superkey (`compute_closure(subset) == all_attributes`). -/
def noSuperkeyProperSubset (A : Finset String) (fds : List FunctionalDependency)
    (combo : Finset String) : Bool :=
  decide ((combo.powerset.filter
    (fun s => 0 < s.card ∧ s.card < combo.card ∧ compute_closure s fds = A)) = ∅)

/-- One iteration of the `for combo in combinations(...)` body of
`find_candidate_keys` (lines 208-229): append `combo` to the accumulated keys
iff it is a superkey, no already-found key is contained in it, and no proper
non-empty subset of it is a superkey. -/
def tryAddKey (A : Finset String) (fds : List FunctionalDependency)
    (keys : List (Finset String)) (combo : Finset String) : List (Finset String) :=
  if compute_closure combo fds = A then
    if ∀ k ∈ keys, ¬ k ⊆ combo then
      if noSuperkeyProperSubset A fds combo then keys ++ [combo] else keys
    else keys
  else keys

/-- The `for size in range(1, len(all_attributes) + 1)` loop of
`find_candidate_keys`, with the `if candidate_keys: break` at the end of each
size iteration. -/
def findCandidateKeysGo (A : Finset String) (fds : List FunctionalDependency)
    (sizes : List Nat) (keys : List (Finset String)) : List (Finset String) :=
  match sizes with
  | [] => keys
  | size :: rest =>
    if (subsetsOfCard A size).foldl (tryAddKey A fds) keys = [] then
      findCandidateKeysGo A fds rest ((subsetsOfCard A size).foldl (tryAddKey A fds) keys)
    else (subsetsOfCard A size).foldl (tryAddKey A fds) keys

/-- `find_candidate_keys(all_attributes, fds)` (fd_parser.py, lines 185-235),
including the final `return candidate_keys if candidate_keys else
[all_attributes]` fallback. -/
def find_candidate_keys (A : Finset String) (fds : List FunctionalDependency) :
    List (Finset String) :=
  if findCandidateKeysGo A fds (List.range' 1 A.card) [] = [] then [A]
  else findCandidateKeysGo A fds (List.range' 1 A.card) []

theorem find_candidate_keys_ne_nil (A : Finset String) (fds : List FunctionalDependency) :
    find_candidate_keys A fds ≠ [] := by
  unfold find_candidate_keys
  split
  · simp
  · assumption

theorem tryAddKey_sound {A x : Finset String} {fds : List FunctionalDependency}
    {keys : List (Finset String)} {combo : Finset String}
    (h : x ∈ tryAddKey A fds keys combo) :
    x ∈ keys ∨ (x = combo ∧ compute_closure x fds = A ∧
      noSuperkeyProperSubset A fds x = true) := by
  unfold tryAddKey at h
  split_ifs at h with h1 h2 h3
  · rcases List.mem_append.mp h with h | h
    · exact Or.inl h
    · rcases List.mem_singleton.mp h with rfl
      exact Or.inr ⟨rfl, h1, h3⟩
  all_goals exact Or.inl h

theorem foldl_tryAddKey_sound {A x : Finset String} {fds : List FunctionalDependency}
    {keys : List (Finset String)} {l : List (Finset String)}
    (h : x ∈ l.foldl (tryAddKey A fds) keys) :
    x ∈ keys ∨ (x ∈ l ∧ compute_closure x fds = A ∧
      noSuperkeyProperSubset A fds x = true) := by
  induction l generalizing keys with
  | nil => exact Or.inl h
  | cons c cs ih =>
    simp only [List.foldl_cons] at h
    rcases ih h with h' | h'
    · rcases tryAddKey_sound h' with h'' | h''
      · exact Or.inl h''
      · exact Or.inr ⟨h''.1 ▸ List.mem_cons_self _ _, h''.2⟩
    · exact Or.inr ⟨List.mem_cons_of_mem _ h'.1, h'.2⟩

theorem findCandidateKeysGo_sound {A x : Finset String} {fds : List FunctionalDependency}
    {sizes : List Nat} {keys : List (Finset String)}
    (h : x ∈ findCandidateKeysGo A fds sizes keys) :
    x ∈ keys ∨ ((∃ s, x ∈ subsetsOfCard A s) ∧ compute_closure x fds = A ∧
      noSuperkeyProperSubset A fds x = true) := by
  induction sizes generalizing keys with
  | nil => exact Or.inl h
  | cons size rest ih =>
    simp only [findCandidateKeysGo] at h
    split at h
    · rcases ih h with h' | h'
      · rcases foldl_tryAddKey_sound h' with h'' | h''
        · exact Or.inl h''
        · exact Or.inr ⟨⟨size, h''.1⟩, h''.2⟩
      · exact Or.inr h'
    · rcases foldl_tryAddKey_sound h with h' | h'
      · exact Or.inl h'
      · exact Or.inr ⟨⟨size, h'.1⟩, h'.2⟩

theorem foldl_tryAddKey_eq_nil {A : Finset String} {fds : List FunctionalDependency}
    {keys : List (Finset String)} {l : List (Finset String)}
    (h : l.foldl (tryAddKey A fds) keys = []) :
    keys = [] ∧ ∀ c ∈ l, tryAddKey A fds [] c = [] := by
  induction l generalizing keys with
  | nil => exact ⟨h, by simp⟩
  | cons c cs ih =>
    simp only [List.foldl_cons] at h
    obtain ⟨h1, h2⟩ := ih h
    have hkeys : keys = [] := by
      unfold tryAddKey at h1
      split_ifs at h1
      · exact absurd h1 (by simp)
      all_goals exact h1
    refine ⟨hkeys, fun d hd => ?_⟩
    rcases List.mem_cons.mp hd with rfl | hd
    · rw [hkeys] at h1; exact h1
    · exact h2 d hd

theorem findCandidateKeysGo_eq_nil {A : Finset String} {fds : List FunctionalDependency}
    {sizes : List Nat} {keys : List (Finset String)}
    (h : findCandidateKeysGo A fds sizes keys = []) :
    ∀ s ∈ sizes, ∀ c ∈ subsetsOfCard A s, tryAddKey A fds [] c = [] := by
  induction sizes generalizing keys with
  | nil => simp
  | cons size rest ih =>
    simp only [findCandidateKeysGo] at h
    intro s hs c hc
    split at h
    · rename_i hnil
      rcases List.mem_cons.mp hs with rfl | hs
      · exact (foldl_tryAddKey_eq_nil hnil).2 c hc
      · exact ih h s hs c hc
    · rename_i hnn
      exact absurd h hnn

theorem compute_closure_empty {fds : List FunctionalDependency}
    (h : ∀ fd ∈ fds, fd.determinant.Nonempty) :
    compute_closure ∅ fds = ∅ := by
  apply compute_closure_fixpoint_eq
  unfold closureStep
  induction fds with
  | nil => simp
  | cons fd rest ih =>
    simp only [List.foldl_cons]
    rw [if_neg]
    · exact ih (fun fd h' => h fd (List.mem_cons_of_mem _ h'))
    · intro hsub
      rcases h fd (List.mem_cons_self _ _) with ⟨a, ha⟩
      exact absurd (hsub ha) (Finset.not_mem_empty a)

/-- C4 (amended).  Whenever `A` is non-empty and every FD has a non-empty
determinant and a dependent contained in `A`, every set `K` returned by
`find_candidate_keys(A, F)` is a candidate key: its closure is `A` and no
proper subset of it closes to `A`. -/
theorem find_candidate_keys_spec (A : Finset String) (fds : List FunctionalDependency)
    (hA : A.Nonempty)
    (hfds : ∀ fd ∈ fds, fd.determinant.Nonempty ∧ fd.dependent ⊆ A) :
    ∀ K ∈ find_candidate_keys A fds,
      compute_closure K fds = A ∧ ∀ S ⊂ K, compute_closure S fds ≠ A := by
  -- `A` itself is a superkey, so the brute-force loop finds at least one key
  -- and the `[all_attributes]` fallback is not taken.
  have hclA : compute_closure A fds = A :=
    Finset.Subset.antisymm
      (compute_closure_subset (Finset.Subset.refl A) (fun fd h => (hfds fd h).2))
      (compute_closure_superset A fds)
  have hgo : findCandidateKeysGo A fds (List.range' 1 A.card) [] ≠ [] := by
    intro hnil
    -- pick a superkey subset of minimal cardinality
    have hSK : A ∈ A.powerset.filter (fun s => s.Nonempty ∧ compute_closure s fds = A) := by
      simp [Finset.mem_filter, Finset.mem_powerset, hA, hclA]
    obtain ⟨S₀, hS₀mem, hS₀min⟩ :=
      Finset.exists_min_image _ Finset.card ⟨A, hSK⟩
    rw [Finset.mem_filter, Finset.mem_powerset] at hS₀mem
    obtain ⟨hS₀A, hS₀ne, hS₀cl⟩ := hS₀mem
    have hs1 : 1 ≤ S₀.card := Finset.card_pos.mpr hS₀ne
    have hsn : S₀.card ≤ A.card := Finset.card_le_card hS₀A
    have hsize : S₀.card ∈ List.range' 1 A.card := by
      rw [List.mem_range'_1]
      omega
    have hS₀sub : S₀ ∈ subsetsOfCard A S₀.card := mem_subsetsOfCard.mpr ⟨hS₀A, rfl⟩
    have := findCandidateKeysGo_eq_nil hnil S₀.card hsize S₀ hS₀sub
    unfold tryAddKey at this
    rw [if_pos hS₀cl, if_pos (by simp), if_pos] at this
    · exact absurd this (by simp)
    · unfold noSuperkeyProperSubset
      rw [decide_eq_true_iff, Finset.filter_eq_empty_iff]
      intro s hs hbad
      obtain ⟨hpos, hlt, hcl⟩ := hbad
      rw [Finset.mem_powerset] at hs
      have : s ∈ A.powerset.filter (fun t => t.Nonempty ∧ compute_closure t fds = A) := by
        rw [Finset.mem_filter, Finset.mem_powerset]
        exact ⟨Finset.Subset.trans hs hS₀A, Finset.card_pos.mp hpos, hcl⟩
      have := hS₀min s this
      omega
  intro K hK
  unfold find_candidate_keys at hK
  rw [if_neg hgo] at hK
  rcases findCandidateKeysGo_sound hK with h | h
  · cases h
  obtain ⟨_, hcl, hns⟩ := h
  refine ⟨hcl, fun S hS => ?_⟩
  rcases Finset.eq_empty_or_nonempty S with rfl | hSne
  · rw [compute_closure_empty (fun fd h => (hfds fd h).1)]
    exact fun h => hA.ne_empty h.symm
  · intro hScl
    unfold noSuperkeyProperSubset at hns
    rw [decide_eq_true_iff, Finset.filter_eq_empty_iff] at hns
    exact hns (Finset.mem_powerset.mpr hS.subset)
      ⟨Finset.card_pos.mpr hSne, Finset.card_lt_card hS, hScl⟩

/-- C4 counterexample.  With `A = {a}` and `F = [a -> b]` no subset of `A`
closes to `A` (the closure of `{a}` is `{a, b}`), so the search finds nothing
and the `return ... else [all_attributes]` fallback of `find_candidate_keys`
returns `[{a}]` even though `compute_closure({a}, F) ≠ A`: the returned set is
not a candidate key as the claim states. -/
theorem find_candidate_keys_fallback_counterexample :
    find_candidate_keys {"a"} [⟨{"a"}, {"b"}⟩] = [{"a"}] ∧
      compute_closure {"a"} [⟨{"a"}, {"b"}⟩] ≠ {"a"} := by decide

/-- Witness for the amended C4: concrete instantiation with
`A = {a, b, c}`, `F = [a -> bc]`; the returned key `{a}` closes to `A`
and its proper subset `∅` does not. -/
theorem find_candidate_keys_spec_witness :
    compute_closure {"a"} [⟨{"a"}, {"b", "c"}⟩] = {"a", "b", "c"} ∧
      compute_closure (∅ : Finset String) [⟨{"a"}, {"b", "c"}⟩] ≠ {"a", "b", "c"} := by
  have h := find_candidate_keys_spec {"a", "b", "c"} [⟨{"a"}, {"b", "c"}⟩]
    (by decide) (by decide) {"a"} (by decide)
  exact ⟨h.1, h.2 ∅ (by decide)⟩

/-! ## Normalization tables and BCNF decomposition
Embeds `schema-engine/normalization/algorithms.py`. -/

/-- A constraint dictionary as built by the decomposers (algorithms.py,
`_set_primary_key` / `_add_foreign_key` / `_add_foreign_keys`): the Python dict
keys that are present only on foreign keys become `Option` fields. -/
structure NConstraint where
  name : String
  ctype : String
  columns : List String
  referenced_table : Option String := none
  referenced_columns : Option (List String) := none
  on_delete : Option String := none
  on_update : Option String := none
  deriving DecidableEq

/-- `Table` (algorithms.py, lines 17-56).  Python stores each column as a dict
of which the decomposition algorithms only ever read the `'name'` key (the
other keys are copied verbatim), so a column is embedded as its name.  The
`indexes` field is never read or written by the decomposers and is omitted. -/
structure NTable where
  name : String
  columns : List String
  constraints : List NConstraint := []
  description : String := ""
  deriving DecidableEq

/-- `Table.get_column_names` (algorithms.py, lines 26-28). -/
def getColumnNames (t : NTable) : Finset String := t.columns.toFinset

/-- `is_bcnf_violation(fd, all_attributes, fds)` (fd_parser.py, lines 258-283). -/
def is_bcnf_violation (fd : FunctionalDependency) (allAttributes : Finset String)
    (fds : List FunctionalDependency) : Bool :=
  if fd.dependent ⊆ fd.determinant then false
  else !(decide (compute_closure fd.determinant fds = allAttributes))

/-- `BCNFDecomposer._generate_table_name` (algorithms.py, lines 211-219); the
mutable `self.table_counter` dict is threaded explicitly as an association
list. -/
def generateTableNameB (counter : List (String × Nat)) (baseName suffix : String) :
    String × List (String × Nat) :=
  let name := baseName ++ "_" ++ suffix
  match (counter.find? (fun p => p.1 = name)).map (·.2) with
  | none => (name, counter ++ [(name, 0)])
  | some k =>
    (name ++ "_" ++ toString (k + 1),
      counter.map (fun p => if p.1 = name then (name, k + 1) else p))

/-- `BCNFDecomposer._create_table_subset` (algorithms.py, lines 221-232). -/
def bcnfCreateTableSubset (original : NTable) (attrs : Finset String) (newName : String) :
    NTable :=
  { name := newName
    columns := original.columns.filter (fun c => c ∈ attrs)
    constraints := []
    description := "Decomposed from " ++ original.name }

/-- `_set_primary_key(table, key_attrs)` (algorithms.py, lines 234-242):
drop any existing PRIMARY KEY constraint and append a fresh one. -/
def setPrimaryKey (t : NTable) (keyAttrs : Finset String) : NTable :=
  { t with constraints :=
      (t.constraints.filter (fun c => c.ctype ≠ "PRIMARY KEY")) ++
        [{ name := "pk_" ++ t.name, ctype := "PRIMARY KEY",
           columns := sortedElems keyAttrs }] }

/-- `BCNFDecomposer._add_foreign_key(source, target, fk_attrs)` (algorithms.py,
lines 244-256). -/
def addForeignKeyB (source target : NTable) (fkAttrs : Finset String) : NTable :=
  { source with constraints := source.constraints ++
      [{ name := "fk_" ++ source.name ++ "_" ++ target.name, ctype := "FOREIGN KEY",
         columns := sortedElems fkAttrs, referenced_table := some target.name,
         referenced_columns := some (sortedElems fkAttrs),
         on_delete := some "CASCADE", on_update := some "CASCADE" }] }

/-- `BCNFDecomposer._project_fds(fds, attrs)` (algorithms.py, lines 258-273). -/
def projectFds (fds : List FunctionalDependency) (attrs : Finset String) :
    List FunctionalDependency :=
  fds.filterMap (fun fd =>
    if fd.determinant ⊆ attrs then
      if fd.dependent ∩ attrs ≠ ∅ ∧ fd.dependent ∩ attrs ≠ fd.determinant then
        some ⟨fd.determinant, fd.dependent ∩ attrs⟩
      else none
    else none)

/-- The violation search at the top of `_decompose_recursive` (algorithms.py,
lines 154-160): the first FD whose determinant lies inside the table, whose
dependent is not contained in its determinant, and which violates BCNF. -/
def findViolation (attrs : Finset String) (fds : List FunctionalDependency) :
    Option FunctionalDependency :=
  fds.find? (fun fd => decide (fd.determinant ⊆ attrs) &&
    !(decide (fd.dependent ⊆ fd.determinant)) && is_bcnf_violation fd attrs fds)

/-- `R1 = X ∪ Y` of the BCNF split (algorithms.py, lines 166-171):
`y = violation.dependent - x` and `r1_attrs = x | y`. -/
def r1AttrsOf (v : FunctionalDependency) : Finset String :=
  v.determinant ∪ (v.dependent \ v.determinant)

/-- `R2 = (R - Y) ∪ X` of the BCNF split (algorithms.py, line 173). -/
def r2AttrsOf (allAttrs : Finset String) (v : FunctionalDependency) : Finset String :=
  (allAttrs \ (v.dependent \ v.determinant)) ∪ v.determinant

/-- The suffix `list(x)[0] if len(x) == 1 else 'detail'` (algorithms.py,
line 177); `list(s)[0]` of a one-element set is its unique element. -/
def bcnfSuffix (v : FunctionalDependency) : String :=
  if v.determinant.card = 1 then (sortedElems v.determinant).headD "detail" else "detail"

/-- Name generation of the BCNF split (algorithms.py, lines 176-178): the
`r1` name, then — only when `r2_attrs != all_attrs` — the `r2` name, with the
shared counter threaded through both calls. -/
def bcnfNames (counter : List (String × Nat)) (table : NTable) (v : FunctionalDependency) :
    (String × List (String × Nat)) × (String × List (String × Nat)) :=
  let p1 := generateTableNameB counter table.name (bcnfSuffix v)
  let p2 := if r2AttrsOf (getColumnNames table) v ≠ getColumnNames table then
    generateTableNameB p1.2 table.name "main" else (table.name, p1.2)
  (p1, p2)

/-- `BCNFDecomposer._decompose_recursive` (algorithms.py, lines 150-209),
instrumented to keep, next to each returned fragment, the FD list that the
recursion projected onto it (the Python function returns only the tables; see
`bcnfDecomposeTables`).  The recursion depth is bounded by the number of
columns because each split strictly shrinks both fragments, so the `fuel`
argument carries that bound; `none` models non-termination, which
`BCNFDecomposer.decompose` is proved never to hit. -/
def decomposeRecursive : Nat → List (String × Nat) → NTable → List FunctionalDependency →
    Option (List (NTable × List FunctionalDependency) × List (String × Nat))
  | 0, _, _, _ => none
  | fuel + 1, counter, table, fds =>
    match findViolation (getColumnNames table) fds with
    | none => some ([(table, fds)], counter)
    | some v =>
      let ps := bcnfNames counter table v
      let r1T := setPrimaryKey (bcnfCreateTableSubset table (r1AttrsOf v) ps.1.1)
        v.determinant
      let r2T := addForeignKeyB
        (bcnfCreateTableSubset table (r2AttrsOf (getColumnNames table) v) ps.2.1)
        r1T v.determinant
      match decomposeRecursive fuel ps.2.2 r1T (projectFds fds (r1AttrsOf v)) with
      | none => none
      | some (l1, counter3) =>
        match decomposeRecursive fuel counter3 r2T
            (projectFds fds (r2AttrsOf (getColumnNames table) v)) with
        | none => none
        | some (l2, counter4) => some (l1 ++ l2, counter4)

/-- `BCNFDecomposer.decompose(table, fds)` (algorithms.py, lines 125-148) with
the per-fragment FD instrumentation of `decomposeRecursive`. -/
def bcnfDecompose (table : NTable) (fds : List FunctionalDependency) :
    Option (List (NTable × List FunctionalDependency)) :=
  let allAttrs := getColumnNames table
  let relevantFds := fds.filter (fun fd =>
    decide (fd.determinant ⊆ allAttrs) && decide (fd.dependent ⊆ allAttrs))
  (decomposeRecursive (allAttrs.card + 1) [] table relevantFds).map (·.1)

/-- `BCNFDecomposer.decompose` exactly as in the source: only the fragment
tables are returned. -/
def bcnfDecomposeTables (table : NTable) (fds : List FunctionalDependency) :
    Option (List NTable) :=
  (bcnfDecompose table fds).map (List.map Prod.fst)

theorem getColumnNames_setPrimaryKey (t : NTable) (k : Finset String) :
    getColumnNames (setPrimaryKey t k) = getColumnNames t := rfl

theorem getColumnNames_addForeignKeyB (s t : NTable) (k : Finset String) :
    getColumnNames (addForeignKeyB s t k) = getColumnNames s := rfl

theorem getColumnNames_createSubset {t : NTable} {attrs : Finset String} {n : String}
    (h : attrs ⊆ getColumnNames t) :
    getColumnNames (bcnfCreateTableSubset t attrs n) = attrs := by
  unfold getColumnNames bcnfCreateTableSubset at *
  ext a
  simp only [List.toFinset_filter, Finset.mem_filter, List.mem_toFinset, decide_eq_true_iff]
  exact ⟨fun ha => ha.2, fun ha => ⟨by simpa using h ha, ha⟩⟩

theorem mem_projectFds {fds : List FunctionalDependency} {attrs : Finset String}
    {fd : FunctionalDependency} (h : fd ∈ projectFds fds attrs) :
    fd.determinant ⊆ attrs ∧ fd.dependent ⊆ attrs := by
  unfold projectFds at h
  rcases List.mem_filterMap.mp h with ⟨g, _, hg⟩
  split_ifs at hg
  · cases Option.some.inj hg
    exact ⟨by assumption, Finset.inter_subset_right⟩

/-- Soundness and termination of the recursive BCNF split, by induction on the
fuel: provided every FD mentions only table columns, the recursion returns,
every leaf still satisfies that invariant, and no FD attached to a leaf is a
BCNF violation of that leaf. -/
theorem decomposeRecursive_sound :
    ∀ (fuel : Nat) (counter : List (String × Nat)) (table : NTable)
      (fds : List FunctionalDependency),
      (∀ fd ∈ fds, fd.determinant ⊆ getColumnNames table ∧
        fd.dependent ⊆ getColumnNames table) →
      (getColumnNames table).card < fuel →
      ∃ l c, decomposeRecursive fuel counter table fds = some (l, c) ∧
        ∀ p ∈ l, ∀ fd ∈ p.2, is_bcnf_violation fd (getColumnNames p.1) p.2 = false := by
  intro fuel
  induction fuel with
  | zero => intro _ _ _ _ h; omega
  | succ fuel ih =>
    intro counter table fds hinv hcard
    simp only [decomposeRecursive]
    cases hfind : findViolation (getColumnNames table) fds with
    | none =>
      refine ⟨[(table, fds)], counter, rfl, ?_⟩
      rintro p hp fd hfd
      rcases List.mem_singleton.mp hp with rfl
      have hpred := List.find?_eq_none.mp hfind fd hfd
      by_cases htriv : fd.dependent ⊆ fd.determinant
      · unfold is_bcnf_violation
        rw [if_pos htriv]
      · have hdet := (hinv fd hfd).1
        simp only [Bool.and_eq_true, decide_eq_true_iff, Bool.not_eq_true',
          decide_eq_false_iff_not] at hpred
        unfold is_bcnf_violation
        rw [if_neg htriv]
        simp only [Bool.not_eq_false', decide_eq_true_iff]
        by_contra hne
        exact hpred ⟨⟨hdet, htriv⟩, by
          unfold is_bcnf_violation
          rw [if_neg htriv]
          simpa using hne⟩
    | some violation =>
      have hmem : violation ∈ fds := List.mem_of_find?_eq_some hfind
      have hpred := List.find?_some hfind
      simp only [Bool.and_eq_true, decide_eq_true_iff, Bool.not_eq_true',
        decide_eq_false_iff_not] at hpred
      obtain ⟨⟨hdetsub, hnottriv⟩, hviol⟩ := hpred
      have hdep : violation.dependent ⊆ getColumnNames table := (hinv violation hmem).2
      have hclne : compute_closure violation.determinant fds ≠ getColumnNames table := by
        unfold is_bcnf_violation at hviol
        rw [if_neg hnottriv] at hviol
        simpa using hviol
      have hr1sub : r1AttrsOf violation ⊆ getColumnNames table :=
        Finset.union_subset hdetsub (Finset.Subset.trans (Finset.sdiff_subset) hdep)
      have hr2sub : r2AttrsOf (getColumnNames table) violation ⊆ getColumnNames table :=
        Finset.union_subset Finset.sdiff_subset hdetsub
      have hr1ss : r1AttrsOf violation ⊂ getColumnNames table := by
        rw [Finset.ssubset_iff_of_subset hr1sub]
        by_contra hno
        push_neg at hno
        have hxy : r1AttrsOf violation = getColumnNames table :=
          Finset.Subset.antisymm hr1sub (fun a ha => by
            by_contra hax
            exact hax (hno a ha))
        apply hclne
        apply Finset.Subset.antisymm
        · exact compute_closure_subset hdetsub (fun fd h => (hinv fd h).2)
        · rw [← hxy]
          refine Finset.union_subset (compute_closure_superset _ _) ?_
          refine Finset.Subset.trans Finset.sdiff_subset ?_
          exact compute_closure_apply hmem (compute_closure_superset _ _)
      have hyne : (violation.dependent \ violation.determinant).Nonempty := by
        rcases Finset.not_subset.mp hnottriv with ⟨a, ha, hax⟩
        exact ⟨a, Finset.mem_sdiff.mpr ⟨ha, hax⟩⟩
      have hr2ss : r2AttrsOf (getColumnNames table) violation ⊂ getColumnNames table := by
        rw [Finset.ssubset_iff_of_subset hr2sub]
        obtain ⟨a, hay⟩ := hyne
        refine ⟨a, hdep (Finset.mem_sdiff.mp hay).1, ?_⟩
        unfold r2AttrsOf
        rw [Finset.mem_union, Finset.mem_sdiff]
        rintro (⟨-, hna⟩ | hxa)
        · exact hna hay
        · exact (Finset.mem_sdiff.mp hay).2 hxa
      have hn1 : getColumnNames (setPrimaryKey (bcnfCreateTableSubset table
          (r1AttrsOf violation) (bcnfNames counter table violation).1.1)
          violation.determinant) = r1AttrsOf violation := by
        rw [getColumnNames_setPrimaryKey, getColumnNames_createSubset hr1sub]
      have hn2 : getColumnNames (addForeignKeyB (bcnfCreateTableSubset table
          (r2AttrsOf (getColumnNames table) violation)
          (bcnfNames counter table violation).2.1)
          (setPrimaryKey (bcnfCreateTableSubset table (r1AttrsOf violation)
            (bcnfNames counter table violation).1.1) violation.determinant)
          violation.determinant) = r2AttrsOf (getColumnNames table) violation := by
        rw [getColumnNames_addForeignKeyB, getColumnNames_createSubset hr2sub]
      have hcard1 : (r1AttrsOf violation).card < fuel := by
        have := Finset.card_lt_card hr1ss
        omega
      have hcard2 : (r2AttrsOf (getColumnNames table) violation).card < fuel := by
        have := Finset.card_lt_card hr2ss
        omega
      obtain ⟨l1, c3, he1, hl1⟩ := ih (bcnfNames counter table violation).2.2
        (setPrimaryKey (bcnfCreateTableSubset table (r1AttrsOf violation)
          (bcnfNames counter table violation).1.1) violation.determinant)
        (projectFds fds (r1AttrsOf violation))
        (fun fd h => by rw [hn1]; exact mem_projectFds h)
        (by rw [hn1]; exact hcard1)
      obtain ⟨l2, c4, he2, hl2⟩ := ih c3
        (addForeignKeyB (bcnfCreateTableSubset table
          (r2AttrsOf (getColumnNames table) violation)
          (bcnfNames counter table violation).2.1)
          (setPrimaryKey (bcnfCreateTableSubset table (r1AttrsOf violation)
            (bcnfNames counter table violation).1.1) violation.determinant)
          violation.determinant)
        (projectFds fds (r2AttrsOf (getColumnNames table) violation))
        (fun fd h => by rw [hn2]; exact mem_projectFds h)
        (by rw [hn2]; exact hcard2)
      refine ⟨l1 ++ l2, c4, ?_, ?_⟩
      · simp only [he1, he2]
      · intro p hp
        rcases List.mem_append.mp hp with hp | hp
        · exact hl1 p hp
        · exact hl2 p hp

/-- C1.  For every table and FD list, `BCNFDecomposer.decompose` terminates
and returns fragments such that no FD projected onto a fragment during the
recursion is a BCNF violation of that fragment. -/
theorem bcnf_decompose_no_violation (table : NTable) (fds : List FunctionalDependency) :
    ∃ l, bcnfDecompose table fds = some l ∧
      bcnfDecomposeTables table fds = some (l.map Prod.fst) ∧
      ∀ p ∈ l, ∀ fd ∈ p.2, is_bcnf_violation fd (getColumnNames p.1) p.2 = false := by
  obtain ⟨l, c, he, hl⟩ := decomposeRecursive_sound ((getColumnNames table).card + 1) []
    table (fds.filter (fun fd => decide (fd.determinant ⊆ getColumnNames table) &&
      decide (fd.dependent ⊆ getColumnNames table)))
    (fun fd h => by
      have := List.of_mem_filter h
      simp only [Bool.and_eq_true, decide_eq_true_iff] at this
      exact this)
    (Nat.lt_succ_self _)
  refine ⟨l, ?_, ?_, hl⟩
  · simp only [bcnfDecompose]
    rw [he]
    rfl
  · simp only [bcnfDecomposeTables, bcnfDecompose]
    rw [he]
    rfl

/-- The `Orders` example of the specification: columns
`order_id, customer_id, customer_name, order_date`. -/
def bcnfOrdersTable : NTable :=
  { name := "Orders", columns := ["order_id", "customer_id", "customer_name", "order_date"] }

/-- FDs `order_id -> customer_id, order_date` and `customer_id -> customer_name`. -/
def bcnfOrdersFds : List FunctionalDependency :=
  [⟨{"order_id"}, {"customer_id", "order_date"}⟩, ⟨{"customer_id"}, {"customer_name"}⟩]

/-- First fragment the BCNF decomposer produces on the `Orders` example. -/
def bcnfOrdersFragment1 : NTable where
  name := "Orders_customer_id"
  columns := ["customer_id", "customer_name"]
  constraints := [⟨"pk_Orders_customer_id", "PRIMARY KEY", ["customer_id"],
    none, none, none, none⟩]
  description := "Decomposed from Orders"

/-- Second fragment the BCNF decomposer produces on the `Orders` example. -/
def bcnfOrdersFragment2 : NTable where
  name := "Orders_main"
  columns := ["order_id", "customer_id", "order_date"]
  constraints := [⟨"fk_Orders_main_Orders_customer_id", "FOREIGN KEY", ["customer_id"],
    some "Orders_customer_id", some ["customer_id"], some "CASCADE", some "CASCADE"⟩]
  description := "Decomposed from Orders"

/-- Witness for C1: on the `Orders` example the first fragment is keyed by
`customer_id` and its projected FD `customer_id -> customer_name` is indeed no
BCNF violation of it. -/
theorem bcnf_decompose_no_violation_witness :
    is_bcnf_violation ⟨{"customer_id"}, {"customer_name"}⟩
      (getColumnNames bcnfOrdersFragment1)
      [⟨{"customer_id"}, {"customer_name"}⟩] = false := by
  obtain ⟨l, h1, -, h3⟩ := bcnf_decompose_no_violation bcnfOrdersTable bcnfOrdersFds
  have he : bcnfDecompose bcnfOrdersTable bcnfOrdersFds = some
      [(bcnfOrdersFragment1, [⟨{"customer_id"}, {"customer_name"}⟩]),
       (bcnfOrdersFragment2, [⟨{"order_id"}, {"customer_id", "order_date"}⟩])] := by
    decide
  rw [h1] at he
  obtain rfl := Option.some.inj he
  exact h3 _ (List.mem_cons_self _ _) _ (List.mem_singleton.mpr rfl)

/-! ## 3NF synthesis decomposition
Embeds `ThreeNFDecomposer` (algorithms.py, lines 276-538). -/

/-- Step 1 of `_compute_minimal_cover` (algorithms.py, lines 392-400):
split every FD into single-attribute right-hand sides, skipping trivial
parts.  (`for attr in fd.dependent` iterates a Python set; the order used
here is the sorted one, which no proved property depends on.) -/
def minimalCoverStep1 (fds : List FunctionalDependency) : List FunctionalDependency :=
  fds.flatMap (fun fd => (sortedElems fd.dependent).filterMap (fun attr =>
    if attr ∈ fd.determinant then none else some ⟨fd.determinant, {attr}⟩))

/-- Step 2 of `_compute_minimal_cover` (algorithms.py, lines 402-418): drop
determinant attributes that are extraneous.  The Python loop builds a
`test_fds` list that it never uses — the closure is taken over `decomposed` —
and that dead code is not modelled. -/
def minimizeDeterminant (decomposed : List FunctionalDependency)
    (fd : FunctionalDependency) : Finset String :=
  (sortedElems fd.determinant).foldl (fun minimalDet attr =>
    if minimalDet.erase attr ≠ ∅ ∧
        fd.dependent ⊆ compute_closure (minimalDet.erase attr) decomposed then
      minimalDet.erase attr
    else minimalDet) fd.determinant

/-- `ThreeNFDecomposer._compute_minimal_cover(fds)` (algorithms.py,
lines 383-430): steps 1 and 2 above followed by the removal of FDs derivable
from the others (`if f != fd` removes every copy equal to `fd`). -/
def compute_minimal_cover (fds : List FunctionalDependency) : List FunctionalDependency :=
  let decomposed := minimalCoverStep1 fds
  let minimized := decomposed.map (fun fd => ⟨minimizeDeterminant decomposed fd, fd.dependent⟩)
  minimized.filter (fun fd =>
    !(decide (fd.dependent ⊆ compute_closure fd.determinant
      (minimized.filter (fun f => !(decide (f = fd)))))))

/-- `ThreeNFDecomposer._group_by_determinant(fds)` (algorithms.py,
lines 432-440): a Python dict keyed by `tuple(sorted(fd.determinant))`,
preserving insertion order, becomes an association list. -/
def groupByDeterminant (fds : List FunctionalDependency) :
    List (List String × List (Finset String)) :=
  fds.foldl (fun grouped fd =>
    if grouped.any (fun p => decide (p.1 = sortedElems fd.determinant)) then
      grouped.map (fun p => if p.1 = sortedElems fd.determinant then
        (p.1, p.2 ++ [fd.dependent]) else p)
    else grouped ++ [(sortedElems fd.determinant, [fd.dependent])]) []

/-- `suffix.replace(' ', '_').lower()` (algorithms.py, line 445), modelled per
character (ASCII lower-casing, which covers every name the algorithms emit). -/
def cleanSuffix (s : String) : String :=
  String.mk (s.data.map (fun c => if c = ' ' then '_' else c.toLower))

/-- `ThreeNFDecomposer._generate_table_name` (algorithms.py, lines 442-452). -/
def generateTableName3 (counter : List (String × Nat)) (baseName suffix : String) :
    String × List (String × Nat) :=
  let name := baseName ++ "_" ++ cleanSuffix suffix
  match (counter.find? (fun p => p.1 = name)).map (·.2) with
  | none => (name, counter ++ [(name, 0)])
  | some k =>
    (name ++ "_" ++ toString (k + 1),
      counter.map (fun p => if p.1 = name then (name, k + 1) else p))

/-- `ThreeNFDecomposer._create_table_subset` (algorithms.py, lines 454-465). -/
def threeNFCreateTableSubset (original : NTable) (attrs : Finset String)
    (newName : String) : NTable :=
  { name := newName
    columns := original.columns.filter (fun c => c ∈ attrs)
    constraints := []
    description := "3NF decomposition from " ++ original.name }

/-- The FD-relevance filter at the top of `ThreeNFDecomposer.decompose`
(algorithms.py, lines 311-314). -/
def threeNFRelevant (table : NTable) (fds : List FunctionalDependency) :
    List FunctionalDependency :=
  fds.filter (fun fd => decide (fd.determinant ⊆ getColumnNames table) &&
    decide (fd.dependent ⊆ getColumnNames table))

/-- Step 2 of `ThreeNFDecomposer.decompose` (algorithms.py, lines 322-345):
one table per determinant group of the minimal cover, with the mutable name
counter threaded through the iteration. -/
def threeNFStep2 (table : NTable) (cover : List FunctionalDependency) :
    List NTable × List (String × Nat) :=
  (groupByDeterminant cover).foldl (fun acc g =>
    let detSet := g.1.toFinset
    let attrs := detSet ∪ g.2.foldl (· ∪ ·) ∅
    let p := generateTableName3 acc.2 table.name (String.intercalate "_" g.1)
    (acc.1 ++ [setPrimaryKey (threeNFCreateTableSubset table attrs p.1) detSet], p.2))
    ([], [])

/-- Step 3 of `ThreeNFDecomposer.decompose` (algorithms.py, lines 347-373):
if no produced table contains a candidate key of the original relation,
append a key-only table. -/
def threeNFWithKey (table : NTable) (relevant : List FunctionalDependency)
    (pair : List NTable × List (String × Nat)) : List NTable :=
  let keys := find_candidate_keys (getColumnNames table) relevant
  if ¬ (keys.any (fun key => pair.1.any (fun t => decide (key ⊆ getColumnNames t)))) ∧
      keys ≠ [] then
    match keys with
    | [] => pair.1
    | key :: _ =>
      pair.1 ++ [setPrimaryKey (threeNFCreateTableSubset table key
        (generateTableName3 pair.2 table.name "key").1) key]
  else pair.1

/-- `ThreeNFDecomposer._remove_redundant_tables(tables)` (algorithms.py,
lines 477-495): drop every table whose column set is a strict subset of
another table's column set (the comparison scans the whole input list). -/
def removeRedundantTables (tables : List NTable) : List NTable :=
  tables.filter (fun t1 => !(tables.any (fun t2 =>
    decide (t1 ≠ t2 ∧ getColumnNames t1 ⊆ getColumnNames t2 ∧
      getColumnNames t1 ≠ getColumnNames t2))))

/-- `ThreeNFDecomposer._add_foreign_keys(tables, fds)` (algorithms.py,
lines 497-538); the `fds` parameter is unused in the source as well.  The
in-place mutation of the table list becomes an indexed fold; `if not t1_pk`
is Python truthiness, skipping both a missing and an empty primary key. -/
def addForeignKeys3 (tables : List NTable) (_fds : List FunctionalDependency) :
    List NTable :=
  (List.range tables.length).foldl (fun state i =>
    match state.get? i with
    | none => state
    | some t1 =>
      match (t1.constraints.find? (fun c => decide (c.ctype = "PRIMARY KEY"))).map
          (fun c => c.columns.toFinset) with
      | none => state
      | some pk =>
        if pk = ∅ then state
        else
          (List.range state.length).foldl (fun st j =>
            if i = j then st
            else match st.get? j with
              | none => st
              | some t2 =>
                if pk ⊆ getColumnNames t2 ∧ pk ≠ getColumnNames t2 then
                  if t2.constraints.any (fun c => decide (c.ctype = "FOREIGN KEY" ∧
                      c.referenced_table = some t1.name)) then st
                  else st.set j { t2 with constraints := t2.constraints ++
                    [⟨"fk_" ++ t2.name ++ "_" ++ t1.name, "FOREIGN KEY", sortedElems pk,
                      some t1.name, some (sortedElems pk), some "CASCADE",
                      some "CASCADE"⟩] }
                else st) state) tables

/-- `ThreeNFDecomposer.decompose(table, fds)` (algorithms.py, lines 294-381). -/
def threeNFDecompose (table : NTable) (fds : List FunctionalDependency) : List NTable :=
  if compute_minimal_cover (threeNFRelevant table fds) = [] then [table]
  else
    addForeignKeys3
      (removeRedundantTables
        (threeNFWithKey table (threeNFRelevant table fds)
          (threeNFStep2 table (compute_minimal_cover (threeNFRelevant table fds)))))
      (compute_minimal_cover (threeNFRelevant table fds))

theorem find_candidate_keys_subset {A : Finset String} {fds : List FunctionalDependency} :
    ∀ K ∈ find_candidate_keys A fds, K ⊆ A := by
  intro K hK
  unfold find_candidate_keys at hK
  split at hK
  · rcases List.mem_singleton.mp hK with rfl
    exact Finset.Subset.refl _
  · rcases findCandidateKeysGo_sound hK with h | h
    · cases h
    · obtain ⟨⟨s, hs⟩, -, -⟩ := h
      exact (mem_subsetsOfCard.mp hs).1

theorem getColumnNames_createSubset3 {t : NTable} {attrs : Finset String} {n : String}
    (h : attrs ⊆ getColumnNames t) :
    getColumnNames (threeNFCreateTableSubset t attrs n) = attrs := by
  unfold getColumnNames threeNFCreateTableSubset at *
  ext a
  simp only [List.toFinset_filter, Finset.mem_filter, List.mem_toFinset, decide_eq_true_iff]
  exact ⟨fun ha => ha.2, fun ha => ⟨by simpa using h ha, ha⟩⟩

theorem foldl_invariant {α β : Type} (P : α → Prop) (f : α → β → α) (l : List β)
    (init : α) (h0 : P init) (hf : ∀ a b, P a → P (f a b)) : P (l.foldl f init) := by
  induction l generalizing init with
  | nil => exact h0
  | cons b bs ih => exact ih _ (hf _ _ h0)

theorem set_same {α : Type} : ∀ (l : List α) (n : Nat) (a : α),
    l.get? n = some a → l.set n a = l := by
  intro l
  induction l with
  | nil => intro n a h; cases h
  | cons x xs ih =>
    intro n a h
    cases n with
    | zero =>
      cases Option.some.inj h
      rfl
    | succ n =>
      show x :: xs.set n a = x :: xs
      rw [ih n a h]

/-- `_add_foreign_keys` only appends constraints: the column lists of the
tables are unchanged. -/
theorem addForeignKeys3_columns (tables : List NTable) (fds : List FunctionalDependency) :
    (addForeignKeys3 tables fds).map NTable.columns = tables.map NTable.columns := by
  unfold addForeignKeys3
  refine foldl_invariant
    (fun (s : List NTable) => s.map NTable.columns = tables.map NTable.columns)
    _ _ _ rfl ?_
  intro state i hstate
  cases hget : state.get? i with
  | none => exact hstate
  | some t1 =>
    simp only [hget]
    cases hpk : (t1.constraints.find? (fun c => decide (c.ctype = "PRIMARY KEY"))).map
        (fun c => c.columns.toFinset) with
    | none => exact hstate
    | some pk =>
      simp only [hpk]
      split
      · exact hstate
      · refine foldl_invariant
          (fun (s : List NTable) => s.map NTable.columns = tables.map NTable.columns)
          _ _ _ hstate ?_
        intro st j hst
        split
        · exact hst
        · cases hget2 : st.get? j with
          | none => simp [hget2, hst]
          | some t2 =>
            simp only [hget2]
            split
            · split
              · exact hst
              · rw [List.map_set, set_same]
                · exact hst
                · rw [List.get?_map, hget2]
                  rfl
            · exact hst

theorem mem_of_columns_eq {L L' : List NTable}
    (h : L'.map NTable.columns = L.map NTable.columns) {t : NTable} (ht : t ∈ L) :
    ∃ t' ∈ L', t'.columns = t.columns := by
  obtain ⟨i, hi⟩ := List.get_of_mem ht
  have h1 : L.get? i = some t := by rw [List.get?_eq_get]; exact congrArg some hi
  have h2 : (L'.map NTable.columns).get? i = some t.columns := by
    rw [h, List.get?_map, h1]
    rfl
  rw [List.get?_map] at h2
  cases hget : L'.get? i with
  | none => rw [hget] at h2; cases h2
  | some t' =>
    rw [hget] at h2
    exact ⟨t', List.get?_mem hget, Option.some.inj h2⟩

theorem exists_maxcard {L : List NTable} {K : Finset String}
    (h : ∃ t ∈ L, K ⊆ getColumnNames t) :
    ∃ t ∈ L, K ⊆ getColumnNames t ∧ ∀ u ∈ L, K ⊆ getColumnNames u →
      (getColumnNames u).card ≤ (getColumnNames t).card := by
  induction L with
  | nil => obtain ⟨t, ht, -⟩ := h; cases ht
  | cons x xs ih =>
    obtain ⟨t, ht, hsub⟩ := h
    by_cases hx : ∃ u ∈ xs, K ⊆ getColumnNames u
    · obtain ⟨m, hm, hmsub, hmax⟩ := ih hx
      by_cases hxK : K ⊆ getColumnNames x
      · by_cases hc : (getColumnNames x).card ≤ (getColumnNames m).card
        · refine ⟨m, List.mem_cons_of_mem _ hm, hmsub, ?_⟩
          intro u hu hKu
          rcases List.mem_cons.mp hu with rfl | hu
          · exact hc
          · exact hmax u hu hKu
        · refine ⟨x, List.mem_cons_self _ _, hxK, ?_⟩
          intro u hu hKu
          rcases List.mem_cons.mp hu with rfl | hu
          · exact le_refl _
          · exact le_trans (hmax u hu hKu) (by omega)
      · refine ⟨m, List.mem_cons_of_mem _ hm, hmsub, ?_⟩
        intro u hu hKu
        rcases List.mem_cons.mp hu with rfl | hu
        · exact absurd hKu hxK
        · exact hmax u hu hKu
    · rcases List.mem_cons.mp ht with rfl | hmem
      · refine ⟨t, List.mem_cons_self _ _, hsub, ?_⟩
        intro u hu hKu
        rcases List.mem_cons.mp hu with rfl | hu
        · exact le_refl _
        · exact absurd ⟨u, hu, hKu⟩ hx
      · exact absurd ⟨t, hmem, hsub⟩ hx

/-- A maximal-column-set table covering `K` survives
`_remove_redundant_tables`. -/
theorem removeRedundantTables_covers {L : List NTable} {K : Finset String}
    (h : ∃ t ∈ L, K ⊆ getColumnNames t) :
    ∃ t ∈ removeRedundantTables L, K ⊆ getColumnNames t := by
  obtain ⟨t, ht, hsub, hmax⟩ := exists_maxcard h
  refine ⟨t, ?_, hsub⟩
  unfold removeRedundantTables
  rw [List.mem_filter]
  refine ⟨ht, ?_⟩
  simp only [Bool.not_eq_true', List.any_eq_false]
  intro t2 ht2 hdec
  obtain ⟨-, hsub2, hne2⟩ := of_decide_eq_true hdec
  have hss : getColumnNames t ⊂ getColumnNames t2 :=
    Finset.ssubset_iff_subset_ne.mpr ⟨hsub2, hne2⟩
  have := hmax t2 ht2 (Finset.Subset.trans hsub hsub2)
  have := Finset.card_lt_card hss
  omega

/-- After step 3 some produced table contains some candidate key of the
original relation. -/
theorem threeNFWithKey_covers (table : NTable) (relevant : List FunctionalDependency)
    (pair : List NTable × List (String × Nat)) :
    ∃ t ∈ threeNFWithKey table relevant pair,
      ∃ K ∈ find_candidate_keys (getColumnNames table) relevant,
        K ⊆ getColumnNames t := by
  simp only [threeNFWithKey]
  split
  · rename_i hcond
    obtain ⟨hnotcov, hne⟩ := hcond
    cases hkeys : find_candidate_keys (getColumnNames table) relevant with
    | nil => exact absurd hkeys hne
    | cons key rest =>
      have hkmem : key ∈ find_candidate_keys (getColumnNames table) relevant := by
        rw [hkeys]
        exact List.mem_cons_self _ _
      have hkA : key ⊆ getColumnNames table := find_candidate_keys_subset key hkmem
      refine ⟨_, List.mem_append_right _ (List.mem_singleton.mpr rfl), key, ?_, ?_⟩
      · exact List.mem_cons_self _ _
      · rw [getColumnNames_setPrimaryKey, getColumnNames_createSubset3 hkA]
  · rename_i hcond
    have hne := find_candidate_keys_ne_nil (getColumnNames table) relevant
    have hcov : (find_candidate_keys (getColumnNames table) relevant).any
        (fun key => pair.1.any (fun t => decide (key ⊆ getColumnNames t))) = true := by
      by_contra hno
      exact hcond ⟨by simpa using hno, hne⟩
    obtain ⟨key, hkey, hany⟩ := List.any_eq_true.mp hcov
    obtain ⟨t, ht, hsub⟩ := List.any_eq_true.mp hany
    exact ⟨t, ht, key, hkey, of_decide_eq_true hsub⟩

/-- C5.  For every table and FD list, the 3NF synthesis result — including the
redundant-table removal — contains a table whose columns include some
candidate key of the original table, as computed by `find_candidate_keys`
over the table's relevant FDs. -/
theorem threeNF_decompose_key_coverage (table : NTable) (fds : List FunctionalDependency) :
    ∃ t ∈ threeNFDecompose table fds,
      ∃ K ∈ find_candidate_keys (getColumnNames table) (threeNFRelevant table fds),
        K ⊆ getColumnNames t := by
  unfold threeNFDecompose
  split
  · obtain ⟨K, hK⟩ := List.exists_mem_of_ne_nil _
      (find_candidate_keys_ne_nil (getColumnNames table) (threeNFRelevant table fds))
    exact ⟨table, List.mem_singleton.mpr rfl, K, hK, find_candidate_keys_subset K hK⟩
  · obtain ⟨t, ht, K, hK, hsub⟩ := threeNFWithKey_covers table (threeNFRelevant table fds)
      (threeNFStep2 table (compute_minimal_cover (threeNFRelevant table fds)))
    obtain ⟨t', ht', hsub'⟩ := removeRedundantTables_covers ⟨t, ht, hsub⟩
    obtain ⟨t'', ht'', hcols⟩ := mem_of_columns_eq
      (addForeignKeys3_columns
        (removeRedundantTables (threeNFWithKey table (threeNFRelevant table fds)
          (threeNFStep2 table (compute_minimal_cover (threeNFRelevant table fds)))))
        (compute_minimal_cover (threeNFRelevant table fds))) ht'
    refine ⟨t'', ht'', K, hK, ?_⟩
    unfold getColumnNames at hsub' ⊢
    rw [hcols]
    exact hsub'

/-- Witness for C5: on the `Orders` example the only candidate key is
`{order_id}` and some table of the 3NF synthesis result contains it. -/
theorem threeNF_decompose_key_coverage_witness :
    (threeNFDecompose bcnfOrdersTable bcnfOrdersFds).any
      (fun t => decide (({"order_id"} : Finset String) ⊆ getColumnNames t)) = true := by
  obtain ⟨t, ht, K, hK, hsub⟩ := threeNF_decompose_key_coverage bcnfOrdersTable bcnfOrdersFds
  have hkeys : find_candidate_keys (getColumnNames bcnfOrdersTable)
      (threeNFRelevant bcnfOrdersTable bcnfOrdersFds) = [{"order_id"}] := by decide
  rw [hkeys] at hK
  rcases List.mem_singleton.mp hK with rfl
  exact List.any_eq_true.mpr ⟨t, ht, decide_eq_true hsub⟩

/-! ## Type mapping
Embeds `backend/erd_to_dsd/type_mapping.py`. -/

/-- A Python runtime value as far as the type mapper inspects one. -/
inductive PyVal where
  | s (v : String)
  | i (v : Int)
  | b (v : Bool)
  | null
  deriving DecidableEq

/-- Python `str(value)` for the values above. -/
def pyStr : PyVal → String
  | .s v => v
  | .i v => toString v
  | .b true => "True"
  | .b false => "False"
  | .null => "None"

/-- Python truthiness for the values above. -/
def pyTruthy : PyVal → Bool
  | .s v => v ≠ ""
  | .i v => v ≠ 0
  | .b v => v
  | .null => false

/-- A single-quote character as a string (`'` written via its code point). -/
def sq : String := String.mk ['\x27']

/-- The two failure modes of Python `str.format` that matter here: a
`KeyError` for a missing keyword argument (caught by `map_type`) and a
`ValueError` for stray braces (propagated by `map_type`). -/
inductive FmtError where
  | keyMissing
  | malformed
  deriving DecidableEq

/-- `template.format(**params)` restricted to the shapes occurring in
`TYPE_MAPPINGS`: `\x7bname\x7d` fields with keyword arguments and no escape
sequences.  The `Option (List Char)` state is `some acc` while scanning a
field name (in reverse). -/
def fmtGo (params : List (String × Nat)) :
    Option (List Char) → List Char → Except FmtError (List Char)
  | some _, [] => .error .malformed
  | none, [] => .ok []
  | none, c :: rest =>
    if c = '\x7b' then fmtGo params (some []) rest
    else if c = '\x7d' then .error .malformed
    else (fmtGo params none rest).map (c :: ·)
  | some acc, c :: rest =>
    if c = '\x7d' then
      match (params.find? (fun p => p.1 = String.mk acc.reverse)).map (·.2) with
      | none => .error .keyMissing
      | some v => (fmtGo params none rest).map ((toString v).data ++ ·)
    else if c = '\x7b' then .error .malformed
    else fmtGo params (some (c :: acc)) rest

/-- Brace discipline of a template: every `\x7b` is closed and no stray
`\x7d` occurs; exactly the condition under which `fmtGo` cannot raise
`ValueError`. -/
def bracesOk : Bool → List Char → Bool
  | false, [] => true
  | true, [] => false
  | false, c :: rest =>
    if c = '\x7b' then bracesOk true rest
    else if c = '\x7d' then false
    else bracesOk false rest
  | true, c :: rest =>
    if c = '\x7d' then bracesOk false rest
    else if c = '\x7b' then false
    else bracesOk true rest

theorem fmtGo_not_malformed (params : List (String × Nat)) :
    ∀ (l : List Char) (mode : Option (List Char)),
      bracesOk mode.isSome l = true →
      fmtGo params mode l ≠ .error .malformed := by
  intro l
  induction l with
  | nil =>
    intro mode h
    cases mode with
    | none => simp [fmtGo]
    | some acc => simp [bracesOk] at h
  | cons c rest ih =>
    intro mode h
    cases mode with
    | none =>
      simp only [Option.isSome_none, bracesOk] at h
      simp only [fmtGo]
      split_ifs at h ⊢ with h1 h2
      · exact ih (some []) (by simpa using h)
      · intro hbad
        cases he : fmtGo params none rest with
        | ok v => rw [he] at hbad; simp [Except.map] at hbad
        | error e =>
          rw [he] at hbad
          simp only [Except.map] at hbad
          cases hbad
          exact ih none (by simpa using h) he
    | some acc =>
      simp only [Option.isSome_some, bracesOk] at h
      simp only [fmtGo]
      split_ifs at h ⊢ with h1 h2
      · cases hl : (params.find? (fun p => p.1 = String.mk acc.reverse)).map (·.2) with
        | none => simp
        | some v =>
          simp only []
          intro hbad
          cases he : fmtGo params none rest with
          | ok w => rw [he] at hbad; simp [Except.map] at hbad
          | error e =>
            rw [he] at hbad
            simp only [Except.map] at hbad
            cases hbad
            exact ih none (by simpa using h) he
      · exact ih (some (c :: acc)) (by simpa using h)

/-- `TypeMapper.DEFAULT_PARAMS` (type_mapping.py, lines 102-105). -/
def defaultParams : String → List (String × Nat)
  | "String" => [("length", 255)]
  | "Decimal" => [("precision", 10), ("scale", 2)]
  | _ => []

/-- `{**defaults, **params}` (type_mapping.py, line 136): `params` wins on
key clashes.  (The Python merge keeps an overridden key at its original
position; only key lookup matters downstream, which agrees.) -/
def mergeParams (d p : List (String × Nat)) : List (String × Nat) :=
  d.filter (fun kv => !(p.any (fun q => decide (q.1 = kv.1)))) ++ p

/-- `TYPE_MAPPINGS['postgresql']` (type_mapping.py, lines 23-41). -/
def pgMappings : List (String × String) :=
  [("String", "VARCHAR({length})"), ("Text", "TEXT"), ("Integer", "INTEGER"),
   ("SmallInt", "SMALLINT"), ("BigInt", "BIGINT"),
   ("Decimal", "DECIMAL({precision},{scale})"), ("Float", "REAL"),
   ("Double", "DOUBLE PRECISION"), ("Boolean", "BOOLEAN"), ("Date", "DATE"),
   ("Time", "TIME"), ("DateTime", "TIMESTAMP"), ("Timestamp", "TIMESTAMP"),
   ("Binary", "BYTEA"), ("JSON", "JSONB"), ("UUID", "UUID"), ("Array", "ARRAY")]

/-- `TYPE_MAPPINGS['mysql']` (type_mapping.py, lines 42-60). -/
def mysqlMappings : List (String × String) :=
  [("String", "VARCHAR({length})"), ("Text", "TEXT"), ("Integer", "INT"),
   ("SmallInt", "SMALLINT"), ("BigInt", "BIGINT"),
   ("Decimal", "DECIMAL({precision},{scale})"), ("Float", "FLOAT"),
   ("Double", "DOUBLE"), ("Boolean", "TINYINT(1)"), ("Date", "DATE"),
   ("Time", "TIME"), ("DateTime", "DATETIME"), ("Timestamp", "TIMESTAMP"),
   ("Binary", "BLOB"), ("JSON", "JSON"), ("UUID", "CHAR(36)"), ("Array", "JSON")]

/-- `TYPE_MAPPINGS['mssql']` (type_mapping.py, lines 61-79). -/
def mssqlMappings : List (String × String) :=
  [("String", "NVARCHAR({length})"), ("Text", "NVARCHAR(MAX)"), ("Integer", "INT"),
   ("SmallInt", "SMALLINT"), ("BigInt", "BIGINT"),
   ("Decimal", "DECIMAL({precision},{scale})"), ("Float", "FLOAT"),
   ("Double", "FLOAT(53)"), ("Boolean", "BIT"), ("Date", "DATE"),
   ("Time", "TIME"), ("DateTime", "DATETIME2"), ("Timestamp", "DATETIME2"),
   ("Binary", "VARBINARY(MAX)"), ("JSON", "NVARCHAR(MAX)"),
   ("UUID", "UNIQUEIDENTIFIER"), ("Array", "NVARCHAR(MAX)")]

/-- `TYPE_MAPPINGS['sqlite']` (type_mapping.py, lines 80-98). -/
def sqliteMappings : List (String × String) :=
  [("String", "TEXT"), ("Text", "TEXT"), ("Integer", "INTEGER"),
   ("SmallInt", "INTEGER"), ("BigInt", "INTEGER"), ("Decimal", "REAL"),
   ("Float", "REAL"), ("Double", "REAL"), ("Boolean", "INTEGER"),
   ("Date", "TEXT"), ("Time", "TEXT"), ("DateTime", "TEXT"),
   ("Timestamp", "TEXT"), ("Binary", "BLOB"), ("JSON", "TEXT"),
   ("UUID", "TEXT"), ("Array", "TEXT")]

/-- `TYPE_MAPPINGS` keyed by dialect name; `none` models the
`ValueError("Unsupported dialect: ...")` of `TypeMapper.__init__`. -/
def typeMappings (dialect : String) : Option (List (String × String)) :=
  if dialect = "postgresql" then some pgMappings
  else if dialect = "mysql" then some mysqlMappings
  else if dialect = "mssql" then some mssqlMappings
  else if dialect = "sqlite" then some sqliteMappings
  else none

/-- `self.mappings[logical_type]` lookup. -/
def lookupTemplate (mappings : List (String × String)) (logicalType : String) :
    Option String :=
  (mappings.find? (fun p => p.1 = logicalType)).map (·.2)

/-- `TypeMapper.map_type(logical_type, **params)` (type_mapping.py,
lines 119-145): unknown logical type raises; a `KeyError` during formatting
falls back to the raw template; any other formatting error propagates. -/
def mapType (mappings : List (String × String)) (logicalType : String)
    (params : List (String × Nat)) : Except String String :=
  match lookupTemplate mappings logicalType with
  | none => .error ("Unknown logical type: " ++ logicalType)
  | some tpl =>
    match fmtGo (mergeParams (defaultParams logicalType) params) none tpl.data with
    | .ok cs => .ok (String.mk cs)
    | .error .keyMissing => .ok tpl
    | .error .malformed => .error "ValueError: unmatched brace in format string"

/-- `TypeMapper.get_default_value(logical_type, value)` (type_mapping.py,
lines 147-175).  The `Boolean` branch falls through without a `return` for a
dialect outside the four supported ones, which Python turns into `None`;
that is the only `none` result. -/
def get_default_value (dialect logicalType : String) (value : PyVal) : Option String :=
  if value = PyVal.null then some "NULL"
  else if logicalType ∈ ["String", "Text", "Date", "Time", "DateTime", "Timestamp",
      "UUID"] then
    some (sq ++ pyStr value ++ sq)
  else if logicalType = "Boolean" then
    if dialect = "postgresql" then some (if pyTruthy value then "TRUE" else "FALSE")
    else if dialect = "mysql" then some (if pyTruthy value then "1" else "0")
    else if dialect = "mssql" then some (if pyTruthy value then "1" else "0")
    else if dialect = "sqlite" then some (if pyTruthy value then "1" else "0")
    else none
  else if logicalType ∈ ["Integer", "SmallInt", "BigInt", "Decimal", "Float",
      "Double"] then
    some (pyStr value)
  else some (sq ++ pyStr value ++ sq)

theorem typeMappings_bracesOk :
    ∀ (d : String) (M : List (String × String)), typeMappings d = some M →
      ∀ p ∈ M, bracesOk false p.2.data = true := by
  intro d M h
  unfold typeMappings at h
  split_ifs at h <;> cases Option.some.inj h <;> decide

/-- C8.  `map_type` fails exactly when the logical type has no entry in the
active dialect's mapping table; for a known type it returns a string —
missing parameters fall back to the per-type defaults (`String` → length 255,
`Decimal` → precision 10, scale 2) and a `KeyError` during formatting yields
the unformatted template. -/
theorem map_type_spec :
    (∀ (d : String) (M : List (String × String)), typeMappings d = some M →
      ∀ (lt : String) (ps : List (String × Nat)),
        ((∃ e, mapType M lt ps = .error e) ↔ lookupTemplate M lt = none) ∧
        (∀ tpl, lookupTemplate M lt = some tpl →
          fmtGo (mergeParams (defaultParams lt) ps) none tpl.data =
            .error .keyMissing →
          mapType M lt ps = .ok tpl)) ∧
    mapType pgMappings "String" [] = .ok "VARCHAR(255)" ∧
    mapType pgMappings "Decimal" [] = .ok "DECIMAL(10,2)" := by
  refine ⟨?_, rfl, rfl⟩
  intro d M hM lt ps
  constructor
  · cases hl : lookupTemplate M lt with
    | none =>
      refine ⟨fun _ => rfl, fun _ => ⟨"Unknown logical type: " ++ lt, ?_⟩⟩
      simp only [mapType, hl]
    | some tpl =>
      have hwf : bracesOk false tpl.data = true := by
        unfold lookupTemplate at hl
        cases hf : M.find? (fun p => p.1 = lt) with
        | none => rw [hf] at hl; cases hl
        | some p =>
          rw [hf] at hl
          cases Option.some.inj hl
          exact typeMappings_bracesOk d M hM p (List.mem_of_find?_eq_some hf)
      simp only [mapType, hl]
      constructor
      · rintro ⟨e, he⟩
        cases hfmt : fmtGo (mergeParams (defaultParams lt) ps) none tpl.data with
        | ok cs => rw [hfmt] at he; cases he
        | error err =>
          cases err with
          | keyMissing => rw [hfmt] at he; cases he
          | malformed => exact absurd hfmt (fmtGo_not_malformed _ _ none hwf)
      · intro h
        cases h
  · intro tpl hl hfmt
    simp only [mapType, hl, hfmt]

/-- Witness for C8: under the postgresql table an unknown type fails, a
known type succeeds (with the `String` default length 255). -/
theorem map_type_spec_witness :
    (∃ e, mapType pgMappings "Geometry" [] = Except.error e) ∧
      mapType pgMappings "String" [] = Except.ok "VARCHAR(255)" := by
  refine ⟨?_, map_type_spec.2.1⟩
  exact (map_type_spec.1 "postgresql" pgMappings (by decide) "Geometry" []).1.mpr
    (by decide)

/-- C10.  For every dialect and string-like logical type, a non-`None`
default value is rendered as its text between two single quotes with no
escaping, and a `None` value is always rendered as `NULL`. -/
theorem get_default_value_spec (dialect logicalType : String) (v : PyVal) :
    (logicalType ∈ ["String", "Text", "Date", "Time", "DateTime", "Timestamp",
        "UUID"] →
      v ≠ PyVal.null →
      get_default_value dialect logicalType v = some (sq ++ pyStr v ++ sq)) ∧
    get_default_value dialect logicalType PyVal.null = some "NULL" := by
  constructor
  · intro hlt hv
    unfold get_default_value
    rw [if_neg hv, if_pos hlt]
  · unfold get_default_value
    rw [if_pos rfl]

/-- Witness for C10: a value containing a single quote is embedded verbatim
between the surrounding quotes. -/
theorem get_default_value_spec_witness :
    get_default_value "postgresql" "String" (PyVal.s ("O" ++ sq ++ "Brien")) =
      some (sq ++ pyStr (PyVal.s ("O" ++ sq ++ "Brien")) ++ sq) :=
  (get_default_value_spec "postgresql" "String" (PyVal.s ("O" ++ sq ++ "Brien"))).1
    (by decide) (by decide)

/-! ## ERD to DSD transformation
Embeds `backend/erd_to_dsd/transformation_engine.py`. -/

/-- `ConstraintType` (transformation_engine.py, lines 12-19). -/
inductive ConstraintType where
  | primaryKey
  | foreignKey
  | uniqueC
  | check
  | notNull
  | defaultC
  deriving DecidableEq

/-- `DSDColumn` (transformation_engine.py, lines 30-45). -/
structure DSDColumn where
  name : String
  sql_type : String
  nullable : Bool := true
  unique : Bool := false
  auto_increment : Bool := false
  default_value : Option String := none
  description : Option String := none
  logical_type : Option String := none
  length : Option Nat := none
  precision : Option Nat := none
  scale : Option Nat := none
  deriving DecidableEq

/-- `DSDConstraint` (transformation_engine.py, lines 48-62). -/
structure DSDConstraint where
  name : String
  ctype : ConstraintType
  columns : List String
  referenced_table : Option String := none
  referenced_columns : Option (List String) := none
  on_delete : Option String := some "RESTRICT"
  on_update : Option String := some "RESTRICT"
  check_expression : Option String := none
  deriving DecidableEq

/-- `DSDIndex` (transformation_engine.py, lines 65-71). -/
structure DSDIndex where
  name : String
  columns : List String
  unique : Bool := false
  index_type : Option String := none
  deriving DecidableEq

/-- `DSDTable` (transformation_engine.py, lines 74-81). -/
structure DSDTable where
  name : String
  columns : List DSDColumn := []
  constraints : List DSDConstraint := []
  indexes : List DSDIndex := []
  description : Option String := none
  deriving DecidableEq

/-- `DSDSchema` (transformation_engine.py, lines 84-90). -/
structure DSDSchema where
  name : String
  tables : List DSDTable := []
  description : Option String := none
  dialect : String := "postgresql"
  deriving DecidableEq

/-- An ERD attribute dictionary: every key the transformer reads, `none`
when the key is absent.  `default := some v` models the presence of the
`'default'` key with value `v`. -/
structure ERDAttribute where
  name : Option String := none
  atype : Option String := none
  length : Option Nat := none
  precision : Option Nat := none
  scale : Option Nat := none
  primary_key : Option Bool := none
  nullable : Option Bool := none
  unique : Option Bool := none
  auto_increment : Option Bool := none
  default : Option PyVal := none
  description : Option String := none
  deriving DecidableEq

/-- An ERD entity dictionary. -/
structure ERDEntity where
  name : Option String := none
  attributes : List ERDAttribute := []
  description : Option String := none
  deriving DecidableEq

/-- An ERD relationship dictionary. -/
structure ERDRelationship where
  rtype : Option String := none
  from_entity : Option String := none
  to_entity : Option String := none
  from_attribute : Option String := none
  to_attribute : Option String := none
  junction_table : Option String := none
  on_delete : Option String := none
  on_update : Option String := none
  deriving DecidableEq

/-- The top-level ERD JSON dictionary. -/
structure ERDJson where
  name : Option String := none
  description : Option String := none
  entities : List ERDEntity := []
  relationships : List ERDRelationship := []
  deriving DecidableEq

/-- How a Python f-string renders an optional string (`None` for a missing
key). -/
def pyOptStr : Option String → String
  | some s => s
  | none => "None"

/-- `ERDToDSDTransformer._transform_attribute_to_column` (transformation
engine, lines 189-244).  `if length:`-style truthiness skips both a missing
and a zero parameter. -/
def transformAttributeToColumn (dialect : String) (mappings : List (String × String))
    (attr : ERDAttribute) : Except String DSDColumn := do
  let logicalType := attr.atype.getD "String"
  let typeParams :=
    (match attr.length with
      | some l => if l ≠ 0 then [("length", l)] else []
      | none => []) ++
    (match attr.precision with
      | some p => if p ≠ 0 then [("precision", p)] else []
      | none => []) ++
    (match attr.scale with
      | some s => if s ≠ 0 then [("scale", s)] else []
      | none => [])
  let sqlType ← mapType mappings logicalType typeParams
  let defaultValue := match attr.default with
    | none => none
    | some v => get_default_value dialect logicalType v
  let column : DSDColumn :=
    { name := attr.name.getD "unknown_column"
      sql_type := sqlType
      nullable := attr.nullable.getD true
      unique := attr.unique.getD false
      auto_increment := attr.auto_increment.getD false
      default_value := defaultValue
      description := some (attr.description.getD "")
      logical_type := some logicalType
      length := attr.length
      precision := attr.precision
      scale := attr.scale }
  if attr.primary_key.getD false then
    pure { column with nullable := false }
  else
    pure column

/-- `ERDToDSDTransformer._transform_entity_to_table` (transformation engine,
lines 138-187).  The unique-constraint loop reads `attr['name']` without a
default, so a missing name there raises a `KeyError`. -/
def transformEntityToTable (dialect : String) (mappings : List (String × String))
    (entity : ERDEntity) : Except String DSDTable := do
  let tableName := entity.name.getD "unknown_table"
  let colsPk ← entity.attributes.foldlM
    (fun (acc : List DSDColumn × List String) attr => do
      let column ← transformAttributeToColumn dialect mappings attr
      pure (acc.1 ++ [column],
        if attr.primary_key.getD false then acc.2 ++ [column.name] else acc.2))
    ([], [])
  let pkConstraints : List DSDConstraint :=
    if colsPk.2 ≠ [] then
      [{ name := "pk_" ++ tableName, ctype := .primaryKey, columns := colsPk.2 }]
    else []
  let uniques ← entity.attributes.foldlM
    (fun (cs : List DSDConstraint) attr =>
      if attr.unique.getD false ∧ ¬ attr.primary_key.getD false then
        match attr.name with
        | none => Except.error "KeyError: name"
        | some n => pure (cs ++
            [{ name := "uq_" ++ tableName ++ "_" ++ n, ctype := .uniqueC,
               columns := [n] }])
      else pure cs)
    []
  pure { name := tableName
         columns := colsPk.1
         constraints := pkConstraints ++ uniques
         description := some (entity.description.getD "") }

/-- `ERDToDSDTransformer._find_table` (transformation engine, lines 398-403);
the name to search for may be a missing key, which matches no table. -/
def findTable (dsd : DSDSchema) (tableName : Option String) : Option DSDTable :=
  dsd.tables.find? (fun t => decide (some t.name = tableName))

/-- `ERDToDSDTransformer._column_exists` (transformation engine,
lines 405-407). -/
def columnExists (table : DSDTable) (columnName : String) : Bool :=
  table.columns.any (fun c => decide (c.name = columnName))

/-- Replace the first table with the given name — the in-place mutation of
the object `_find_table` returned. -/
def updateFirstTable : List DSDTable → String → (DSDTable → DSDTable) → List DSDTable
  | [], _, _ => []
  | t :: ts, n, f =>
    if t.name = n then f t :: ts else t :: updateFirstTable ts n f

/-- The FK target column name `to_attribute or f"{from_entity}_id"` of
`_add_one_to_many_fk` (transformation engine, line 272). -/
def oneToManyToAttr (rel : ERDRelationship) : String :=
  rel.to_attribute.getD (pyOptStr rel.from_entity ++ "_id")

/-- The FK column `_add_one_to_many_fk` adds (transformation engine,
lines 281-287). -/
def oneToManyFkColumn (rel : ERDRelationship) : DSDColumn :=
  { name := oneToManyToAttr rel, sql_type := "INTEGER", nullable := false,
    logical_type := some "Integer" }

/-- The FK constraint `_add_one_to_many_fk` appends (transformation engine,
lines 290-299). -/
def oneToManyFkConstraint (rel : ERDRelationship) : DSDConstraint :=
  { name := "fk_" ++ pyOptStr rel.to_entity ++ "_" ++ pyOptStr rel.from_entity
    ctype := .foreignKey
    columns := [oneToManyToAttr rel]
    referenced_table := rel.from_entity
    referenced_columns := some [rel.from_attribute.getD "id"]
    on_delete := some (rel.on_delete.getD "CASCADE")
    on_update := some (rel.on_update.getD "CASCADE") }

/-- The index on the FK column `_add_one_to_many_fk` appends (transformation
engine, lines 302-306). -/
def oneToManyFkIndex (rel : ERDRelationship) : DSDIndex :=
  { name := "idx_" ++ pyOptStr rel.to_entity ++ "_" ++ oneToManyToAttr rel
    columns := [oneToManyToAttr rel] }

/-- The mutation `_add_one_to_many_fk` performs on the "many" table
(transformation engine, lines 280-306): add the FK column if absent, then
always append the FK constraint and its index. -/
def applyOneToManyFk (rel : ERDRelationship) (t : DSDTable) : DSDTable :=
  let t1 := if ¬ columnExists t (oneToManyToAttr rel) then
    { t with columns := t.columns ++ [oneToManyFkColumn rel] } else t
  { t1 with constraints := t1.constraints ++ [oneToManyFkConstraint rel],
            indexes := t1.indexes ++ [oneToManyFkIndex rel] }

/-- `ERDToDSDTransformer._add_one_to_many_fk` (transformation engine,
lines 267-306). -/
def addOneToManyFk (rel : ERDRelationship) (dsd : DSDSchema) : DSDSchema :=
  match findTable dsd rel.to_entity with
  | none => dsd
  | some toTable =>
    { dsd with
        tables := updateFirstTable dsd.tables toTable.name (applyOneToManyFk rel) }

/-- `ERDToDSDTransformer._add_many_to_one_fk` (transformation engine,
lines 308-318): reverse the relationship and reuse the 1:N logic. -/
def addManyToOneFk (rel : ERDRelationship) (dsd : DSDSchema) : DSDSchema :=
  addOneToManyFk
    { rel with
        from_entity := rel.to_entity
        to_entity := rel.from_entity
        from_attribute := some (rel.to_attribute.getD "id")
        to_attribute := some (rel.from_attribute.getD
          (pyOptStr rel.to_entity ++ "_id")) }
    dsd

/-- `ERDToDSDTransformer._add_one_to_one_fk` (transformation engine,
lines 320-335). -/
def addOneToOneFk (rel : ERDRelationship) (dsd : DSDSchema) : DSDSchema :=
  let dsd1 := addOneToManyFk rel dsd
  match findTable dsd1 rel.to_entity with
  | none => dsd1
  | some toTable =>
    { dsd1 with tables := updateFirstTable dsd1.tables toTable.name (fun t =>
        { t with constraints := t.constraints ++
            [{ name := "uq_" ++ pyOptStr rel.to_entity ++ "_" ++
                 (rel.to_attribute.getD (pyOptStr rel.from_entity ++ "_id")),
               ctype := .uniqueC,
               columns := [rel.to_attribute.getD
                 (pyOptStr rel.from_entity ++ "_id")] }] }) }

/-- `ERDToDSDTransformer._add_many_to_many_junction` (transformation engine,
lines 337-396). -/
def addManyToManyJunction (rel : ERDRelationship) (dsd : DSDSchema) : DSDSchema :=
  let fromE := pyOptStr rel.from_entity
  let toE := pyOptStr rel.to_entity
  let junctionName := rel.junction_table.getD (fromE ++ "_" ++ toE)
  let junction : DSDTable :=
    { name := junctionName
      description := some ("Junction table for " ++ fromE ++ " and " ++ toE)
      columns :=
        [{ name := fromE ++ "_id", sql_type := "INTEGER", nullable := false,
           logical_type := some "Integer" },
         { name := toE ++ "_id", sql_type := "INTEGER", nullable := false,
           logical_type := some "Integer" }]
      constraints :=
        [{ name := "pk_" ++ junctionName, ctype := .primaryKey,
           columns := [fromE ++ "_id", toE ++ "_id"] },
         { name := "fk_" ++ junctionName ++ "_" ++ fromE, ctype := .foreignKey,
           columns := [fromE ++ "_id"], referenced_table := rel.from_entity,
           referenced_columns := some ["id"], on_delete := some "CASCADE" },
         { name := "fk_" ++ junctionName ++ "_" ++ toE, ctype := .foreignKey,
           columns := [toE ++ "_id"], referenced_table := rel.to_entity,
           referenced_columns := some ["id"], on_delete := some "CASCADE" }] }
  { dsd with tables := dsd.tables ++ [junction] }

/-- `ERDToDSDTransformer._process_relationship` (transformation engine,
lines 246-265): dispatch on the cardinality string, silently ignoring
unknown values. -/
def processRelationship (rel : ERDRelationship) (dsd : DSDSchema) : DSDSchema :=
  let rtype := rel.rtype.getD "1:N"
  if rtype = "1:N" then addOneToManyFk rel dsd
  else if rtype = "N:1" then addManyToOneFk rel dsd
  else if rtype = "1:1" then addOneToOneFk rel dsd
  else if rtype = "N:M" then addManyToManyJunction rel dsd
  else dsd

/-- `ERDToDSDTransformer.transform(erd_json)` (transformation engine,
lines 106-136).  `TypeMapper(dialect)` in `__init__` rejects unsupported
dialects, so the `(typeMappings dialect).getD []` fallback is unreachable
through the class. -/
def ERDTransform (dialect : String) (erd : ERDJson) : Except String DSDSchema := do
  let mappings := (typeMappings dialect).getD []
  let tables ← erd.entities.mapM (transformEntityToTable dialect mappings)
  let dsd : DSDSchema :=
    { name := erd.name.getD "database"
      description := some (erd.description.getD "")
      dialect := dialect
      tables := tables }
  pure (erd.relationships.foldl (fun d rel => processRelationship rel d) dsd)

/-! ## DSD validation
Embeds `backend/erd_to_dsd/validation_service.py`. -/

/-- `ValidationSeverity` (validation_service.py, lines 12-16). -/
inductive Severity where
  | error
  | warning
  | info
  deriving DecidableEq

/-- `ValidationIssue` (validation_service.py, lines 19-27). -/
structure ValidationIssue where
  severity : Severity
  table : String
  column : Option String := none
  constraint : Option String := none
  message : String := ""
  code : String := ""
  deriving DecidableEq

/-- Names occurring more than once, reported once each (the Python
`set([name for name in names if names.count(name) > 1])`; sets iterate in an
unspecified order, here the first-occurrence order). -/
def duplicateNames (names : List String) : List String :=
  (names.filter (fun n => decide (1 < names.count n))).dedup

/-- `DSDValidator._validate_tables` (validation_service.py, lines 66-100). -/
def validateTables (dsd : DSDSchema) : List ValidationIssue :=
  (if dsd.tables = [] then
    [{ severity := .error, table := "<schema>",
       message := "Schema has no tables defined", code := "NO_TABLES" }]
  else []) ++
  (duplicateNames (dsd.tables.map (·.name))).map (fun dup =>
    { severity := .error, table := dup,
      message := "Duplicate table name " ++ sq ++ dup ++ sq,
      code := "DUPLICATE_TABLE" }) ++
  dsd.tables.filterMap (fun t =>
    if t.columns = [] then
      some
        { severity := .error, table := t.name,
          message := "Table " ++ sq ++ t.name ++ sq ++ " has no columns",
          code := "NO_COLUMNS" }
    else none)

/-- `DSDValidator._validate_columns` (validation_service.py, lines 102-130);
`if not column.sql_type` is string truthiness, firing on the empty string. -/
def validateColumns (dsd : DSDSchema) : List ValidationIssue :=
  dsd.tables.flatMap (fun t =>
    (duplicateNames (t.columns.map (·.name))).map (fun dup =>
      { severity := .error, table := t.name, column := some dup,
        message := "Duplicate column name " ++ sq ++ dup ++ sq ++ " in table " ++
          sq ++ t.name ++ sq,
        code := "DUPLICATE_COLUMN" }) ++
    t.columns.filterMap (fun c =>
      if c.sql_type = "" then
        some
          { severity := .error, table := t.name, column := some c.name,
            message := "Column " ++ sq ++ c.name ++ sq ++ " has no SQL type defined",
            code := "MISSING_TYPE" }
      else none))

/-- `DSDValidator._validate_constraints` (validation_service.py,
lines 132-168). -/
def validateConstraints (dsd : DSDSchema) : List ValidationIssue :=
  dsd.tables.flatMap (fun t =>
    (if (t.constraints.filter (fun c => decide (c.ctype = .primaryKey))).length = 0 then
      [{ severity := .warning, table := t.name,
         message := "Table " ++ sq ++ t.name ++ sq ++ " has no primary key",
         code := "NO_PRIMARY_KEY" }]
    else if 1 < (t.constraints.filter (fun c => decide (c.ctype = .primaryKey))).length then
      [{ severity := .error, table := t.name,
         message := "Table " ++ sq ++ t.name ++ sq ++ " has multiple primary keys",
         code := "MULTIPLE_PRIMARY_KEYS" }]
    else []) ++
    t.constraints.flatMap (fun c =>
      c.columns.filterMap (fun colName =>
        if colName ∈ t.columns.map (·.name) then none
        else some
          { severity := .error, table := t.name, constraint := some c.name,
            message := "Constraint " ++ sq ++ c.name ++ sq ++
              " references non-existent column " ++ sq ++ colName ++ sq,
            code := "INVALID_CONSTRAINT_COLUMN" })))

/-- `{t.name: t for t in dsd.tables}` (validation_service.py, line 173):
a later table with the same name overrides an earlier one. -/
def tableMapLookup (dsd : DSDSchema) (n : Option String) : Option DSDTable :=
  match n with
  | none => none
  | some s => dsd.tables.reverse.find? (fun t => decide (t.name = s))

/-- `DSDValidator._validate_foreign_key_references` (validation_service.py,
lines 170-218). -/
def validateForeignKeyReferences (dsd : DSDSchema) : List ValidationIssue :=
  dsd.tables.flatMap (fun t =>
    (t.constraints.filter (fun c => decide (c.ctype = .foreignKey))).flatMap (fun c =>
      match tableMapLookup dsd c.referenced_table with
      | none =>
        [{ severity := .error, table := t.name, constraint := some c.name,
           message := "Foreign key references non-existent table " ++ sq ++
             pyOptStr c.referenced_table ++ sq,
           code := "INVALID_FK_TABLE" }]
      | some refTable =>
        ((c.referenced_columns.getD []).filterMap (fun refCol =>
          if refCol ∈ refTable.columns.map (·.name) then none
          else some
            { severity := .error, table := t.name, constraint := some c.name,
              message := "Foreign key references non-existent column " ++ sq ++ refCol ++
                sq ++ " in table " ++ sq ++ refTable.name ++ sq,
              code := "INVALID_FK_COLUMN" }) ++
        (if c.columns ≠ [] ∧ c.referenced_columns.getD [] ≠ [] then
          match t.columns.find? (fun col => decide (col.name = c.columns.headD "")),
            refTable.columns.find?
              (fun col => decide (col.name = (c.referenced_columns.getD []).headD "")) with
          | some localCol, some refCol =>
            if localCol.sql_type ≠ refCol.sql_type then
              [{ severity := .warning, table := t.name, constraint := some c.name,
                 message := "Type mismatch in FK " ++ sq ++ c.name ++ sq ++ ": " ++
                   localCol.sql_type ++ " vs " ++ refCol.sql_type,
                 code := "FK_TYPE_MISMATCH" }]
            else []
          | _, _ => []
        else []))))

/-- `DSDValidator._check_for_best_practices` (validation_service.py,
lines 220-275). -/
def checkBestPractices (dsd : DSDSchema) : List ValidationIssue :=
  dsd.tables.flatMap (fun t =>
    (if t.columns.any (fun c =>
        decide (c.name ∈ ["created_at", "created", "date_created"])) then []
     else
      [{ severity := .info, table := t.name,
         message := "Consider adding a " ++ sq ++ "created_at" ++ sq ++
           " timestamp column to " ++ sq ++ t.name ++ sq,
         code := "MISSING_CREATED_AT" }]) ++
    (if t.columns.any (fun c =>
        decide (c.name ∈ ["updated_at", "updated", "date_updated"])) then []
     else
      [{ severity := .info, table := t.name,
         message := "Consider adding an " ++ sq ++ "updated_at" ++ sq ++
           " timestamp column to " ++ sq ++ t.name ++ sq,
         code := "MISSING_UPDATED_AT" }]) ++
    (if 50 < t.columns.length then
      [{ severity := .warning, table := t.name,
         message := "Table " ++ sq ++ t.name ++ sq ++ " has " ++
           toString t.columns.length ++ " columns. Consider normalizing.",
         code := "TOO_MANY_COLUMNS" }]
     else []) ++
    (((t.constraints.filter (fun c => decide (c.ctype = .foreignKey))).flatMap
        (·.columns)).dedup.filterMap (fun fkCol =>
      if fkCol ∈ (t.indexes.filter (fun i => i.columns.length = 1)).filterMap
          (fun i => i.columns.head?) then none
      else some
        { severity := .info, table := t.name, column := some fkCol,
          message := "Consider adding an index on FK column " ++ sq ++ fkCol ++ sq,
          code := "FK_WITHOUT_INDEX" })))

/-- The concatenation of all five checks in `DSDValidator.validate`
(validation_service.py, lines 43-50). -/
def collectIssues (dsd : DSDSchema) : List ValidationIssue :=
  validateTables dsd ++ validateColumns dsd ++ validateConstraints dsd ++
    validateForeignKeyReferences dsd ++ checkBestPractices dsd

/-- The dictionary `DSDValidator.validate` returns (validation_service.py,
lines 57-64). -/
structure ValidationResult where
  valid : Bool
  issues : List ValidationIssue
  errors : Nat
  warnings : Nat
  infos : Nat
  summary : String
  deriving DecidableEq

/-- `DSDValidator.validate(dsd)` (validation_service.py, lines 33-64). -/
def validate (dsd : DSDSchema) : ValidationResult :=
  let issues := collectIssues dsd
  let errors := issues.filter (fun i => decide (i.severity = .error))
  let warnings := issues.filter (fun i => decide (i.severity = .warning))
  let infos := issues.filter (fun i => decide (i.severity = .info))
  { valid := errors.length = 0
    issues := issues
    errors := errors.length
    warnings := warnings.length
    infos := infos.length
    summary := toString errors.length ++ " errors, " ++ toString warnings.length ++
      " warnings, " ++ toString infos.length ++ " info" }

theorem severity_partition (l : List ValidationIssue) :
    (l.filter (fun i => decide (i.severity = .error))).length +
      (l.filter (fun i => decide (i.severity = .warning))).length +
      (l.filter (fun i => decide (i.severity = .info))).length = l.length := by
  induction l with
  | nil => rfl
  | cons i rest ih =>
    cases hs : i.severity <;> simp [List.filter_cons, hs] <;> omega

/-- C7.  `validate` returns `valid = true` exactly when no ERROR-severity
issue was collected; WARNING and INFO issues never make it false, and the
`errors`/`warnings`/`infos` counts partition the issue list by severity. -/
theorem validate_valid_iff (dsd : DSDSchema) :
    ((validate dsd).valid = true ↔
      (collectIssues dsd).filter (fun i => decide (i.severity = .error)) = []) ∧
    (validate dsd).issues = collectIssues dsd ∧
    (validate dsd).errors =
      ((collectIssues dsd).filter (fun i => decide (i.severity = .error))).length ∧
    (validate dsd).warnings =
      ((collectIssues dsd).filter (fun i => decide (i.severity = .warning))).length ∧
    (validate dsd).infos =
      ((collectIssues dsd).filter (fun i => decide (i.severity = .info))).length ∧
    (validate dsd).errors + (validate dsd).warnings + (validate dsd).infos =
      (collectIssues dsd).length := by
  refine ⟨?_, rfl, rfl, rfl, rfl, severity_partition _⟩
  show (decide (((collectIssues dsd).filter
    (fun i => decide (i.severity = .error))).length = 0) = true ↔ _)
  rw [decide_eq_true_iff, List.length_eq_zero]

/-! ## The users/posts 1:N scenario (C6) and FK re-application (C9) -/

/-- The ERD of the specification scenario: entities `users{id PK, name}` and
`posts{id PK, title}` and a 1:N relationship `users -> posts` with
`from_attribute = id`, `to_attribute = user_id`. -/
def erdC6 : ERDJson where
  name := some "blog"
  entities :=
    [{ name := some "users",
       attributes :=
         [{ name := some "id", atype := some "Integer", primary_key := some true },
          { name := some "name" }] },
     { name := some "posts",
       attributes :=
         [{ name := some "id", atype := some "Integer", primary_key := some true },
          { name := some "title" }] }]
  relationships :=
    [{ rtype := some "1:N", from_entity := some "users", to_entity := some "posts",
       from_attribute := some "id", to_attribute := some "user_id" }]

/-- The 1:N relationship of the scenario. -/
def c9rel : ERDRelationship where
  rtype := some "1:N"
  from_entity := some "users"
  to_entity := some "posts"
  from_attribute := some "id"
  to_attribute := some "user_id"

/-- The DSD the transformer produces for `erdC6` (the transform succeeds, as
C6's theorem proves). -/
def c6dsd : DSDSchema :=
  match ERDTransform "postgresql" erdC6 with
  | .ok d => d
  | .error _ => { name := "" }

/-- The `user_id` column the transformer adds to `posts`. -/
def userIdColumnC6 : DSDColumn where
  name := "user_id"
  sql_type := "INTEGER"
  nullable := false
  logical_type := some "Integer"

/-- The FK constraint the transformer adds to `posts`. -/
def fkConstraintC6 : DSDConstraint where
  name := "fk_posts_users"
  ctype := .foreignKey
  columns := ["user_id"]
  referenced_table := some "users"
  referenced_columns := some ["id"]
  on_delete := some "CASCADE"
  on_update := some "CASCADE"

/-- The `posts` table of `c6dsd`. -/
def postsTableC6 : DSDTable where
  name := "posts"
  columns :=
    [{ name := "id", sql_type := "INTEGER", nullable := false,
       description := some "", logical_type := some "Integer" },
     { name := "title", sql_type := "VARCHAR(255)",
       description := some "", logical_type := some "String" },
     userIdColumnC6]
  constraints :=
    [{ name := "pk_posts", ctype := .primaryKey, columns := ["id"] },
     fkConstraintC6]
  indexes := [{ name := "idx_posts_user_id", columns := ["user_id"] }]
  description := some ""

/-- C6.  Transforming the scenario ERD yields a `posts` table with a
`user_id` column of SQL type INTEGER and `nullable = False`, a FOREIGN KEY
constraint `fk_posts_users` referencing `users(id)`, and an index on
`[user_id]`; validating the DSD yields zero ERROR-severity issues. -/
theorem erd_users_posts_scenario :
    ERDTransform "postgresql" erdC6 = .ok c6dsd ∧
    (∃ t, findTable c6dsd (some "posts") = some t ∧
      (∃ c, t.columns.find? (fun c => decide (c.name = "user_id")) = some c ∧
        c.sql_type = "INTEGER" ∧ c.nullable = false) ∧
      (∃ k, t.constraints.find? (fun c => decide (c.name = "fk_posts_users")) = some k ∧
        k.ctype = .foreignKey ∧ k.referenced_table = some "users" ∧
        k.referenced_columns = some ["id"]) ∧
      t.indexes.any (fun i => decide (i.columns = ["user_id"])) = true) ∧
    (validate c6dsd).errors = 0 ∧ (validate c6dsd).valid = true := by
  exact ⟨rfl, ⟨postsTableC6, by decide, ⟨userIdColumnC6, by decide, rfl, rfl⟩,
    ⟨fkConstraintC6, by decide, rfl, rfl, rfl⟩, by decide⟩, by decide, by decide⟩

/-- The target schema re-applied in C9's counterexample: the transform
output, which already contains every effect of the relationship. -/
def c9dsd2 : DSDSchema := addOneToManyFk c9rel c6dsd

/-- C9 counterexample.  Re-processing the already-applied 1:N relationship
changes the `posts` table: the FK column is not duplicated, but a second
copy of the FK constraint and of the index is appended, so the table is not
left unchanged as the claim states. -/
theorem addOneToManyFk_not_idempotent :
    findTable c9dsd2 (some "posts") ≠ findTable c6dsd (some "posts") ∧
    (findTable c9dsd2 (some "posts")).map (fun t => t.columns) =
      (findTable c6dsd (some "posts")).map (fun t => t.columns) := by
  constructor
  · intro h
    exact absurd (congrArg (Option.map (fun t => t.constraints.length)) h) (by decide)
  · decide

theorem applyOneToManyFk_name (rel : ERDRelationship) (t : DSDTable) :
    (applyOneToManyFk rel t).name = t.name := by
  unfold applyOneToManyFk
  split <;> rfl

theorem applyOneToManyFk_existing {rel : ERDRelationship} {t : DSDTable}
    (hcol : columnExists t (oneToManyToAttr rel) = true) :
    applyOneToManyFk rel t =
      { t with constraints := t.constraints ++ [oneToManyFkConstraint rel],
               indexes := t.indexes ++ [oneToManyFkIndex rel] } := by
  unfold applyOneToManyFk
  rw [if_neg (by simp [hcol])]

theorem findTable_updateFirstTable {tables : List DSDTable} {n : Option String}
    {t : DSDTable} (f : DSDTable → DSDTable)
    (hf : tables.find? (fun u => decide (some u.name = n)) = some t)
    (hn : (f t).name = t.name) :
    (updateFirstTable tables t.name f).find? (fun u => decide (some u.name = n)) =
      some (f t) := by
  have htn : some t.name = n := by
    have := List.find?_some hf
    exact of_decide_eq_true this
  induction tables with
  | nil => cases hf
  | cons u rest ih =>
    simp only [List.find?] at hf
    cases hpu : decide (some u.name = n) with
    | true =>
      rw [hpu] at hf
      have hut : u = t := Option.some.inj hf
      subst hut
      unfold updateFirstTable
      rw [if_pos rfl]
      simp only [List.find?]
      rw [show decide (some (f u).name = n) = true from
        decide_eq_true (by rw [hn]; exact of_decide_eq_true hpu)]
    | false =>
      rw [hpu] at hf
      have hu : ¬ some u.name = n := of_decide_eq_false hpu
      have hune : u.name ≠ t.name := fun h => hu (h ▸ htn)
      unfold updateFirstTable
      rw [if_neg hune]
      simp only [List.find?, hpu]
      exact ih hf

/-- C9 (amended).  When the target table already has the FK column,
re-processing the 1:N relationship adds no column — the column list is
unchanged — but it appends one more copy of the FK constraint and of the
index. -/
theorem addOneToManyFk_reapply (rel : ERDRelationship) (dsd : DSDSchema) (t : DSDTable)
    (hfind : findTable dsd rel.to_entity = some t)
    (hcol : columnExists t (oneToManyToAttr rel) = true) :
    findTable (addOneToManyFk rel dsd) rel.to_entity =
      some { t with constraints := t.constraints ++ [oneToManyFkConstraint rel],
                    indexes := t.indexes ++ [oneToManyFkIndex rel] } := by
  unfold addOneToManyFk
  rw [hfind]
  show (updateFirstTable dsd.tables t.name (applyOneToManyFk rel)).find?
    (fun u => decide (some u.name = rel.to_entity)) = _
  rw [findTable_updateFirstTable _ hfind (applyOneToManyFk_name rel t),
    applyOneToManyFk_existing hcol]

/-- Witness for the amended C9 on a one-table schema that already has the
`user_id` column. -/
def c9postsSmall : DSDTable where
  name := "posts"
  columns := [{ name := "user_id", sql_type := "INTEGER" }]

/-- The schema around `c9postsSmall`. -/
def c9dsdSmall : DSDSchema where
  name := "s"
  tables := [c9postsSmall]

/-- Witness for the amended C9. -/
theorem addOneToManyFk_reapply_witness :
    findTable (addOneToManyFk c9rel c9dsdSmall) c9rel.to_entity =
      some { c9postsSmall with
              constraints := c9postsSmall.constraints ++ [oneToManyFkConstraint c9rel],
              indexes := c9postsSmall.indexes ++ [oneToManyFkIndex c9rel] } :=
  addOneToManyFk_reapply c9rel c9dsdSmall c9postsSmall (by decide) (by decide)

/-! ## SQL formatting
Embeds `backend/erd_to_dsd/sql_formatter.py`. -/

/-- `pat` is a leading segment of `l` (character-wise). -/
def charsStartWith : List Char → List Char → Bool
  | [], _ => true
  | _ :: _, [] => false
  | a :: as, b :: bs => a = b && charsStartWith as bs

/-- `pat in s` for character lists (Python substring membership). -/
def charsContain (pat : List Char) : List Char → Bool
  | [] => charsStartWith pat []
  | l@(_ :: rest) => charsStartWith pat l || charsContain pat rest

/-- Python `s.upper()`, per character (ASCII, which covers every identifier
and dialect name the formatter sees). -/
def strUpper (s : String) : String := String.mk (s.data.map Char.toUpper)

/-- `SQLFormatter._quote_identifier` (sql_formatter.py, lines 174-185). -/
def quoteIdentifier (dialect identifier : String) : String :=
  if dialect = "postgresql" then
    if identifier.data.contains ' ' ∨ strUpper identifier ≠ identifier then
      "\"" ++ identifier ++ "\"" else identifier
  else if dialect = "mysql" then "`" ++ identifier ++ "`"
  else if dialect = "mssql" then "[" ++ identifier ++ "]"
  else if dialect = "sqlite" then
    if identifier.data.contains ' ' then "\"" ++ identifier ++ "\"" else identifier
  else identifier

/-- `SQLFormatter._format_column` (sql_formatter.py, lines 104-128),
including the `SERIAL` rewrite and the conditional `parts.remove('NOT NULL')`
for auto-increment postgresql columns; `if column.default_value:` is Python
truthiness, skipping both a missing and an empty default. -/
def formatColumn (dialect : String) (column : DSDColumn) : String :=
  let parts := [quoteIdentifier dialect column.name, column.sql_type]
  let parts := if ¬ column.nullable then parts ++ ["NOT NULL"] else parts
  let parts :=
    if column.auto_increment then
      if dialect = "postgresql" then
        if charsContain "INTEGER".data (strUpper column.sql_type).data then
          let parts := parts.set 1 "SERIAL"
          if "NOT NULL" ∈ parts then parts.erase "NOT NULL" else parts
        else parts
      else if dialect = "mysql" then parts ++ ["AUTO_INCREMENT"]
      else if dialect = "mssql" then parts ++ ["IDENTITY(1,1)"]
      else parts
    else parts
  let parts := if column.default_value.getD "" ≠ "" then
    parts ++ ["DEFAULT " ++ column.default_value.getD ""] else parts
  " ".intercalate parts

/-- `SQLFormatter._format_inline_constraint` (sql_formatter.py,
lines 130-140). -/
def formatInlineConstraint (dialect : String) (c : DSDConstraint) : String :=
  if c.ctype = .primaryKey then
    "CONSTRAINT " ++ quoteIdentifier dialect c.name ++ " PRIMARY KEY (" ++
      ", ".intercalate (c.columns.map (quoteIdentifier dialect)) ++ ")"
  else if c.ctype = .uniqueC then
    "CONSTRAINT " ++ quoteIdentifier dialect c.name ++ " UNIQUE (" ++
      ", ".intercalate (c.columns.map (quoteIdentifier dialect)) ++ ")"
  else ""

/-- `SQLFormatter._format_foreign_key_constraint` (sql_formatter.py,
lines 142-163).  A missing `referenced_table` would raise a `TypeError`
inside `_quote_identifier` in Python; every FK the transformer emits carries
one, and the name is rendered via its f-string spelling here. -/
def formatForeignKeyConstraint (dialect tableName : String) (c : DSDConstraint) :
    String :=
  let parts :=
    ["ALTER TABLE " ++ quoteIdentifier dialect tableName,
     "ADD CONSTRAINT " ++ quoteIdentifier dialect c.name,
     "FOREIGN KEY (" ++ ", ".intercalate (c.columns.map (quoteIdentifier dialect)) ++
       ")",
     "REFERENCES " ++ quoteIdentifier dialect (pyOptStr c.referenced_table) ++ " (" ++
       ", ".intercalate ((c.referenced_columns.getD []).map (quoteIdentifier dialect)) ++
       ")"]
  let parts := if c.on_delete.getD "" ≠ "" then
    parts ++ ["ON DELETE " ++ c.on_delete.getD ""] else parts
  let parts := if c.on_update.getD "" ≠ "" then
    parts ++ ["ON UPDATE " ++ c.on_update.getD ""] else parts
  " ".intercalate parts ++ ";"

/-- `SQLFormatter._format_create_index` (sql_formatter.py, lines 165-172). -/
def formatCreateIndex (dialect tableName : String) (index : DSDIndex) : String :=
  "CREATE " ++ (if index.unique then "UNIQUE " else "") ++ "INDEX " ++
    quoteIdentifier dialect index.name ++ " ON " ++ quoteIdentifier dialect tableName ++
    " (" ++ ", ".intercalate (index.columns.map (quoteIdentifier dialect)) ++ ");"

/-- The line list `_format_create_table` builds before its FK section
(sql_formatter.py, lines 74-94): optional description comment, the
`CREATE TABLE` header, the comma-joined column and inline-constraint
definitions, and the closing `);`. -/
def createTableHeadLines (dialect : String) (t : DSDTable) : List String :=
  (if t.description.getD "" ≠ "" then ["-- " ++ t.description.getD ""] else []) ++
  ["CREATE TABLE " ++ quoteIdentifier dialect t.name ++ " ("] ++
  [",\n".intercalate
    (t.columns.map (fun c => "    " ++ formatColumn dialect c) ++
      (t.constraints.filter (fun c =>
        decide (c.ctype = .primaryKey ∨ c.ctype = .uniqueC))).map
        (fun c => "    " ++ formatInlineConstraint dialect c))] ++
  [");"]

/-- `SQLFormatter._format_create_table` (sql_formatter.py, lines 73-102):
the head lines above followed, inside the same string, by one blank line and
one `ALTER TABLE ... FOREIGN KEY` statement per FK constraint. -/
def formatCreateTable (dialect : String) (t : DSDTable) : String :=
  "\n".intercalate
    (createTableHeadLines dialect t ++
      (t.constraints.filter (fun c => decide (c.ctype = .foreignKey))).flatMap
        (fun fk => ["", formatForeignKeyConstraint dialect t.name fk]))

/-- `SQLFormatter.format_schema` (sql_formatter.py, lines 30-71). -/
def formatSchema (dialect : String) (dsd : DSDSchema) (includeDrop : Bool) : String :=
  "\n".intercalate
    (["-- Schema: " ++ dsd.name] ++
     (if dsd.description.getD "" ≠ "" then ["-- " ++ dsd.description.getD ""] else []) ++
     ["-- Generated for: " ++ strUpper dialect] ++ [""] ++
     (if includeDrop then
       ["-- Drop tables (in reverse order to handle FK dependencies)"] ++
       dsd.tables.reverse.map (fun t =>
         "DROP TABLE IF EXISTS " ++ quoteIdentifier dialect t.name ++ " CASCADE;") ++
       [""]
     else []) ++
     ["-- Create tables"] ++
     dsd.tables.flatMap (fun t => [formatCreateTable dialect t, ""]) ++
     (if dsd.tables.any (fun t => decide (t.indexes ≠ [])) then
       ["-- Create indexes"] ++
       dsd.tables.flatMap (fun t => t.indexes.map (formatCreateIndex dialect t.name)) ++
       [""]
     else []))

/-- The pattern `pat` occurs in `s` starting at character position `i`. -/
def occursAt (s pat : String) (i : Nat) : Bool :=
  charsStartWith pat.data (s.data.drop i)

/-- A `users` table with a single `id` column. -/
def usersTableC2 : DSDTable where
  name := "users"
  columns := [{ name := "id", sql_type := "INTEGER", nullable := false }]
  constraints := [{ name := "pk_users", ctype := .primaryKey, columns := ["id"] }]

/-- A schema listing `posts` (which carries an FK to `users`) before
`users`. -/
def c2schema : DSDSchema where
  name := "blog"
  tables := [postsTableC6, usersTableC2]

/-- C2 counterexample.  In `format_schema`'s output for `c2schema`, the FK
`ALTER TABLE` statement of `posts` starts at character 220 while
`CREATE TABLE "users"` starts at character 360: an FK ALTER statement
precedes a table's CREATE TABLE, so FK ALTERs are not all emitted after all
CREATE TABLE statements. -/
theorem format_schema_fk_before_create_counterexample :
    occursAt (formatSchema "postgresql" c2schema false)
      ("ALTER TABLE \"posts\" ADD CONSTRAINT \"fk_posts_users\" FOREIGN KEY " ++
        "(\"user_id\") REFERENCES \"users\" (\"id\") ON DELETE CASCADE " ++
        "ON UPDATE CASCADE;") 220 = true ∧
    occursAt (formatSchema "postgresql" c2schema false) "CREATE TABLE \"users\"" 360 =
      true ∧
    220 < 360 := by decide

theorem intercalate_go_append (s acc : String) (l1 l2 : List String) :
    String.intercalate.go acc s (l1 ++ l2) =
      String.intercalate.go (String.intercalate.go acc s l1) s l2 := by
  induction l1 generalizing acc with
  | nil => rfl
  | cons a as ih => exact ih _

theorem intercalate_append_pair {A : List String} (hA : A ≠ []) (t : String) :
    "\n".intercalate (A ++ ["", t]) = "\n".intercalate A ++ "\n\n" ++ t := by
  cases A with
  | nil => exact absurd rfl hA
  | cons a as =>
    show String.intercalate.go a "\n" (as ++ ["", t]) = _
    rw [intercalate_go_append]
    show (String.intercalate.go a "\n" as ++ "\n" ++ "") ++ "\n" ++ t = _
    rw [String.append_empty]
    rw [String.append_assoc _ "\n" "\n"]
    rfl

theorem intercalate_flatMap_blank {α : Type} (f : α → String) :
    ∀ (fks : List α) (A : List String), A ≠ [] →
      "\n".intercalate (A ++ fks.flatMap (fun fk => ["", f fk])) =
        "\n".intercalate A ++ String.join (fks.map (fun fk => "\n\n" ++ f fk)) := by
  intro fks
  induction fks with
  | nil =>
    intro A hA
    show "\n".intercalate (A ++ []) = _
    rw [List.append_nil]
    show _ = "\n".intercalate A ++ ""
    rw [String.append_empty]
  | cons fk rest ih =>
    intro A hA
    show "\n".intercalate (A ++ (["", f fk] ++ rest.flatMap (fun fk => ["", f fk]))) = _
    rw [← List.append_assoc]
    rw [ih (A ++ ["", f fk]) (by simp)]
    rw [intercalate_append_pair hA]
    show _ = _ ++ String.join (("\n\n" ++ f fk) :: rest.map (fun fk => "\n\n" ++ f fk))
    have hfold : ∀ (l : List String) (acc : String),
        List.foldl (fun r s => r ++ s) acc l =
          acc ++ List.foldl (fun r s => r ++ s) "" l := by
      intro l
      induction l with
      | nil => intro acc; exact (String.append_empty acc).symm
      | cons b bs ihb =>
        intro acc
        show List.foldl _ (acc ++ b) bs = acc ++ List.foldl _ ("" ++ b) bs
        rw [ihb (acc ++ b), ihb ("" ++ b), String.empty_append, String.append_assoc]
    have hjoin : String.join (("\n\n" ++ f fk) :: rest.map (fun fk => "\n\n" ++ f fk)) =
        ("\n\n" ++ f fk) ++ String.join (rest.map (fun fk => "\n\n" ++ f fk)) := by
      show List.foldl (fun r s => r ++ s) ("" ++ ("\n\n" ++ f fk)) _ = _
      rw [String.empty_append]
      exact hfold _ _
    rw [hjoin]
    simp only [String.append_assoc]

theorem filter_inline_of_filter_notFK (cs : List DSDConstraint) :
    ((cs.filter (fun c => decide (¬ c.ctype = .foreignKey))).filter (fun c =>
      decide (c.ctype = .primaryKey ∨ c.ctype = .uniqueC))) =
    cs.filter (fun c => decide (c.ctype = .primaryKey ∨ c.ctype = .uniqueC)) := by
  rw [List.filter_filter]
  apply List.filter_congr
  intro c _
  cases hc : c.ctype <;> simp [hc]

theorem filter_fk_of_filter_notFK (cs : List DSDConstraint) :
    ((cs.filter (fun c => decide (¬ c.ctype = .foreignKey))).filter (fun c =>
      decide (c.ctype = .foreignKey))) = [] := by
  rw [List.filter_filter, List.filter_eq_nil]
  intro c _
  cases hc : c.ctype <;> simp [hc]

/-- C2 (amended).  Each table's FK `ALTER TABLE` statements are emitted
inside that table's own `CREATE TABLE` block — the block equals the FK-free
rendering of the table followed by one blank line and one ALTER statement
per FK constraint — rather than after all CREATE TABLE statements of the
schema. -/
theorem formatCreateTable_fk_after_own_create (dialect : String) (t : DSDTable) :
    formatCreateTable dialect t =
      formatCreateTable dialect
        { t with constraints :=
            t.constraints.filter (fun c => decide (¬ c.ctype = .foreignKey)) } ++
      String.join ((t.constraints.filter (fun c => decide (c.ctype = .foreignKey))).map
        (fun fk => "\n\n" ++ formatForeignKeyConstraint dialect t.name fk)) := by
  unfold formatCreateTable
  have h1 : createTableHeadLines dialect
      { t with constraints :=
          t.constraints.filter (fun c => decide (¬ c.ctype = .foreignKey)) } =
      createTableHeadLines dialect t := by
    unfold createTableHeadLines
    rw [filter_inline_of_filter_notFK]
  rw [h1, filter_fk_of_filter_notFK]
  rw [show (([] : List DSDConstraint).flatMap (fun fk =>
    ["", formatForeignKeyConstraint dialect t.name fk])) = [] from rfl]
  rw [List.append_nil]
  exact intercalate_flatMap_blank _ _ _ (by
    unfold createTableHeadLines
    intro h
    simp at h)

/-- Witness for the amended C2 on the `posts` table: its block is the
FK-free block followed by the blank line and the single FK ALTER
statement. -/
theorem formatCreateTable_fk_after_own_create_witness :
    formatCreateTable "postgresql" postsTableC6 =
      formatCreateTable "postgresql"
        { postsTableC6 with constraints :=
            postsTableC6.constraints.filter (fun c => decide (¬ c.ctype = .foreignKey)) } ++
      String.join ((postsTableC6.constraints.filter
        (fun c => decide (c.ctype = .foreignKey))).map
        (fun fk => "\n\n" ++ formatForeignKeyConstraint "postgresql"
          postsTableC6.name fk)) :=
  formatCreateTable_fk_after_own_create "postgresql" postsTableC6

end Shabang
